import Mathlib

set_option maxRecDepth 200000

/-!
Verification of the fund forecasting engine in
`src/shared/enhanced-fund-model.ts` (repository `updog`).

The embedding is exact: JavaScript `number` arithmetic is modelled by `ℚ`
(the claims under scrutiny are either structural or hold exactly in
rational arithmetic), the deterministic linear-congruential generator is
modelled by explicit `Nat` seed threading, and the memoization cache of
the forecast orchestrator is modelled as explicit state.  Where a
JavaScript semantic detail is load-bearing (the `NaN` produced by `0/0`
in the reserve-ratio validation check), the model keeps it via an
explicit guard, with a comment at the definition.
-/

/-! ## Data model (from `src/types/index.ts` and the engine source) -/

/-- Severity of a validation issue (`'error' | 'warning'`). -/
inductive Severity where
  | error : Severity
  | warning : Severity
deriving DecidableEq, Repr, Inhabited

/-- One validation issue (`interface ValidationError`). -/
structure ValidationError where
  field : String
  message : String
  code : String
  severity : Severity
deriving DecidableEq, Repr, Inhabited

/-- Structured error thrown by the orchestrator (`class FundModelError`). -/
structure FundModelError where
  code : String
  message : String
  details : List ValidationError
deriving DecidableEq, Repr, Inhabited

/-- One investment record of a portfolio company (`interface Investment`). -/
structure Investment where
  stage : String
  amount : ℚ
  quarter : ℤ
  ownership : ℚ
  isFollowOn : Bool
deriving DecidableEq, Repr, Inhabited

/-- Status of a portfolio company (`'active' | 'exited' | 'written-off'`). -/
inductive CompanyStatus where
  | active : CompanyStatus
  | exited : CompanyStatus
  | writtenOff : CompanyStatus
deriving DecidableEq, Repr, Inhabited

/-- A simulated portfolio company (`interface PortfolioCompany`).  The
optional `exitValue` field of the source is modelled as a plain `ℚ` with
`0` standing for `undefined`: the engine only ever writes `0` or a
positive value into it, and reads it through JavaScript truthiness
(`c.exitValue || 0`, `if (c.exitValue)`), under which `0` and
`undefined` behave identically. -/
structure PortfolioCompany where
  id : String
  name : String
  entryStage : String
  currentStage : String
  investments : List Investment
  totalInvested : ℚ
  exitValue : ℚ
  exitQuarter : Option ℚ
  status : CompanyStatus
deriving DecidableEq, Repr, Inhabited

/-- One stage strategy row, with the fields the engine actually reads
(the engine's `DEFAULT_STAGE_STRATEGIES` carry `exitMultiple` and
`avgExitQuarter` in addition to the base interface). -/
structure StageStrategy where
  stage : String
  allocationPct : ℚ
  avgInvestmentSize : ℚ
  graduationRate : ℚ
  weightedExitValue : ℚ
  exitMultiple : ℚ
  avgExitQuarter : ℚ
deriving DecidableEq, Repr, Inhabited

/-- Exit-probability row over the five outcome buckets, with the field
names the engine uses (`fail/low/med/high/mega`). -/
structure ExitProbs where
  fail : ℚ
  low : ℚ
  med : ℚ
  high : ℚ
  mega : ℚ
deriving DecidableEq, Repr, Inhabited

/-- A graduation matrix row is an ordered list of
(destination stage, probability) pairs; `Object.entries` iterates in
insertion order, which the list order models. -/
abbrev GraduationMatrix := List (String × List (String × ℚ))

/-- Exit-probability matrix: stage name to bucket distribution. -/
abbrev ExitProbabilityMatrix := List (String × ExitProbs)

/-- The fund configuration (`interface EnhancedFundInputs`), restricted
to the fields the forecasting engine reads. -/
structure EnhancedFundInputs where
  fundName : String
  fundSize : ℚ
  managementFeeRate : ℚ
  carryPct : ℚ
  hurdleRate : ℚ
  gpCommitmentPct : ℚ
  includeGpInFees : Bool
  fundLifeYears : ℚ
  investmentPeriodYears : ℚ
  fundLifeQuarters : ℕ
  investPeriodQuarters : ℕ
  stageStrategies : List StageStrategy
  graduationMatrix : GraduationMatrix
  exitProbabilityMatrix : ExitProbabilityMatrix
deriving DecidableEq, Repr

/-! ### JavaScript numbers for the timeline arithmetic

The timeline loop divides by `fundLifeQuarters - 12` and by
`investPeriodQuarters`, neither of which validation constrains, so a
validating configuration can make the source produce `Infinity` and
`NaN` values that then flow through the generated `CashFlowPoint`s.
`JSRat` models a JavaScript number as a finite rational (float rounding
idealized away, as everywhere else in this file) or one of the three
IEEE special values `+Infinity`, `-Infinity`, `NaN`, with the IEEE
semantics of the operations the timeline uses.  Signed zeros are
collapsed into `fin 0`: the only zero denominators the engine can
produce are exact literals or integer differences, which are `+0`. -/

/-- A JavaScript number: exact finite value or IEEE special value. -/
inductive JSRat where
  | fin : ℚ → JSRat
  | inf : JSRat
  | negInf : JSRat
  | nan : JSRat
deriving DecidableEq, Repr, Inhabited

/-- IEEE negation. -/
def JSRat.neg : JSRat → JSRat
  | JSRat.fin q => JSRat.fin (-q)
  | JSRat.inf => JSRat.negInf
  | JSRat.negInf => JSRat.inf
  | JSRat.nan => JSRat.nan

/-- IEEE addition: `NaN` absorbs, opposite infinities give `NaN`. -/
def JSRat.add : JSRat → JSRat → JSRat
  | JSRat.nan, _ => JSRat.nan
  | _, JSRat.nan => JSRat.nan
  | JSRat.inf, JSRat.negInf => JSRat.nan
  | JSRat.negInf, JSRat.inf => JSRat.nan
  | JSRat.inf, _ => JSRat.inf
  | _, JSRat.inf => JSRat.inf
  | JSRat.negInf, _ => JSRat.negInf
  | _, JSRat.negInf => JSRat.negInf
  | JSRat.fin a, JSRat.fin b => JSRat.fin (a + b)

/-- IEEE subtraction: `NaN` absorbs, like-signed infinities give `NaN`. -/
def JSRat.sub : JSRat → JSRat → JSRat
  | JSRat.nan, _ => JSRat.nan
  | _, JSRat.nan => JSRat.nan
  | JSRat.inf, JSRat.inf => JSRat.nan
  | JSRat.negInf, JSRat.negInf => JSRat.nan
  | JSRat.inf, _ => JSRat.inf
  | _, JSRat.inf => JSRat.negInf
  | JSRat.negInf, _ => JSRat.negInf
  | _, JSRat.negInf => JSRat.inf
  | JSRat.fin a, JSRat.fin b => JSRat.fin (a - b)

/-- IEEE multiplication: `NaN` absorbs, zero times infinity is `NaN`. -/
def JSRat.mul : JSRat → JSRat → JSRat
  | JSRat.nan, _ => JSRat.nan
  | _, JSRat.nan => JSRat.nan
  | JSRat.inf, JSRat.inf => JSRat.inf
  | JSRat.inf, JSRat.negInf => JSRat.negInf
  | JSRat.negInf, JSRat.inf => JSRat.negInf
  | JSRat.negInf, JSRat.negInf => JSRat.inf
  | JSRat.inf, JSRat.fin b =>
    if 0 < b then JSRat.inf else if b < 0 then JSRat.negInf else JSRat.nan
  | JSRat.fin a, JSRat.inf =>
    if 0 < a then JSRat.inf else if a < 0 then JSRat.negInf else JSRat.nan
  | JSRat.negInf, JSRat.fin b =>
    if 0 < b then JSRat.negInf else if b < 0 then JSRat.inf else JSRat.nan
  | JSRat.fin a, JSRat.negInf =>
    if 0 < a then JSRat.negInf else if a < 0 then JSRat.inf else JSRat.nan
  | JSRat.fin a, JSRat.fin b => JSRat.fin (a * b)

/-- IEEE division: a finite value over (positive) zero is a signed
infinity, zero over zero and infinity over infinity are `NaN`. -/
def JSRat.div : JSRat → JSRat → JSRat
  | JSRat.nan, _ => JSRat.nan
  | _, JSRat.nan => JSRat.nan
  | JSRat.inf, JSRat.inf => JSRat.nan
  | JSRat.inf, JSRat.negInf => JSRat.nan
  | JSRat.negInf, JSRat.inf => JSRat.nan
  | JSRat.negInf, JSRat.negInf => JSRat.nan
  | JSRat.inf, JSRat.fin b => if b < 0 then JSRat.negInf else JSRat.inf
  | JSRat.negInf, JSRat.fin b => if b < 0 then JSRat.inf else JSRat.negInf
  | JSRat.fin _, JSRat.inf => JSRat.fin 0
  | JSRat.fin _, JSRat.negInf => JSRat.fin 0
  | JSRat.fin a, JSRat.fin b =>
    if b = 0 then
      if 0 < a then JSRat.inf else if a < 0 then JSRat.negInf else JSRat.nan
    else JSRat.fin (a / b)

/-- `Math.max`: `NaN` if either argument is `NaN`. -/
def JSRat.max : JSRat → JSRat → JSRat
  | JSRat.nan, _ => JSRat.nan
  | _, JSRat.nan => JSRat.nan
  | JSRat.inf, _ => JSRat.inf
  | _, JSRat.inf => JSRat.inf
  | JSRat.negInf, y => y
  | x, JSRat.negInf => x
  | JSRat.fin a, JSRat.fin b => JSRat.fin (if a ≤ b then b else a)

/-- `Math.abs`: `NaN` stays `NaN`, infinities become `+Infinity`. -/
def JSRat.abs : JSRat → JSRat
  | JSRat.nan => JSRat.nan
  | JSRat.inf => JSRat.inf
  | JSRat.negInf => JSRat.inf
  | JSRat.fin a => JSRat.fin |a|

/-- The strict `<` comparison: false whenever either side is `NaN`. -/
def JSRat.lt : JSRat → JSRat → Bool
  | JSRat.nan, _ => false
  | _, JSRat.nan => false
  | JSRat.inf, _ => false
  | _, JSRat.inf => true
  | _, JSRat.negInf => false
  | JSRat.negInf, _ => true
  | JSRat.fin a, JSRat.fin b => decide (a < b)

/-- `Math.pow` with a natural exponent, as iterated multiplication
(agreeing with the IEEE results for the natural exponents the IRR loop
uses, including `x^0 = 1` for every `x`). -/
def JSRat.pow (x : JSRat) : ℕ → JSRat
  | 0 => JSRat.fin 1
  | n + 1 => JSRat.mul (JSRat.pow x n) x

/-- JavaScript `x || 0`: `NaN` and `0` are falsy and give `0` (`fin 0`
either way for `0`), everything else passes through. -/
def JSRat.orZero : JSRat → JSRat
  | JSRat.nan => JSRat.fin 0
  | x => x

/-- One quarter of the generated timeline (`interface CashFlowPoint`).
The monetary and ratio fields are JavaScript numbers, since a
validating configuration can drive them to `Infinity`/`NaN` through the
unvalidated schedule divisions; `quarter` and `year` are always finite
(`quarter/4` of a natural number). -/
structure CashFlowPoint where
  quarter : ℕ
  year : ℚ
  yearQuarter : String
  contributions : JSRat
  distributions : JSRat
  managementFees : JSRat
  cumulativeContributions : JSRat
  cumulativeDistributions : JSRat
  nav : JSRat
  dpi : JSRat
  rvpi : JSRat
  tvpi : JSRat
  moic : JSRat
  netMoic : JSRat
  grossIrr : JSRat
  netIrr : JSRat
deriving DecidableEq, Repr, Inhabited

/-- Per-company result (`interface CompanyResult`). -/
structure CompanyResult where
  companyId : String
  invested : ℚ
  exitProceeds : ℚ
  profit : ℚ
  carry : ℚ
  lpProfit : ℚ
  multiple : ℚ
deriving DecidableEq, Repr, Inhabited

/-- Aggregate waterfall result (`interface WaterfallSummary`). -/
structure WaterfallSummary where
  totalInvested : ℚ
  totalExitValue : ℚ
  totalProfit : ℚ
  lpReturnOfCapital : ℚ
  lpPreferredReturn : ℚ
  gpCatchUp : ℚ
  gpCarry : ℚ
  lpCarry : ℚ
  finalLpProceeds : ℚ
  finalGpProceeds : ℚ
deriving DecidableEq, Repr, Inhabited

/-- The intermediate chart arrays of a forecast result (JavaScript
numbers: the deployment and distribution schedules can be
`Infinity`/`NaN` for degenerate timing inputs). -/
structure ForecastIntermediates where
  quarterlyDeployments : List JSRat
  quarterlyNAVs : List JSRat
  quarterlyDistributions : List JSRat
  quarterlyManagementFees : List JSRat
  companiesCreated : ℕ
  companiesExited : ℕ
  companiesWrittenOff : ℕ
deriving DecidableEq, Repr, Inhabited

/-- The full forecast output (`interface ForecastResult`), without the
wall-clock `calculationDate` field, which is not a function of the
inputs. -/
structure ForecastResult where
  timeline : List CashFlowPoint
  portfolio : List PortfolioCompany
  companyResults : List CompanyResult
  waterfallSummary : WaterfallSummary
  totalInvested : ℚ
  totalExitValue : ℚ
  totalManagementFees : ℚ
  totalGpCarry : ℚ
  totalLpProfit : ℚ
  grossMoic : ℚ
  netMoic : ℚ
  grossIrr : JSRat
  netIrr : JSRat
  tvpi : JSRat
  dpi : JSRat
  rvpi : JSRat
  fundLifeQuarters : ℕ
  intermediates : ForecastIntermediates
deriving DecidableEq, Repr, Inhabited

/-! ## The deterministic pseudo-random generator

Both `buildPortfolioFromStrategy` (seed 12345) and
`simulatePortfolioProgression` (seed 67890) use the Lehmer generator
`seed = (seed * 16807) % 2147483647; return seed / 2147483647`.  All
intermediate products stay below 2^53, so the JavaScript float
computation is exact and `Nat`/`ℚ` model it faithfully. -/

/-- Advance the Lehmer generator state. -/
def lcgNextSeed (s : ℕ) : ℕ := s * 16807 % 2147483647

/-- The value returned by one call of `deterministicRandom()` from state
`s`: the generator advances first, then divides by the modulus. -/
def lcgRand (s : ℕ) : ℚ := ((lcgNextSeed s : ℕ) : ℚ) / 2147483647

/-- The value of the `(j+1)`-st call of `deterministicRandom()` when the
state before the first call is `s`. -/
def randAt (s : ℕ) (j : ℕ) : ℚ := ((lcgNextSeed^[j + 1] s : ℕ) : ℚ) / 2147483647

theorem lcgRand_nonneg (s : ℕ) : 0 ≤ lcgRand s := by
  unfold lcgRand
  positivity

theorem lcgRand_lt_one (s : ℕ) : lcgRand s < 1 := by
  unfold lcgRand lcgNextSeed
  rw [div_lt_one (by norm_num)]
  exact_mod_cast Nat.cast_lt.mpr (Nat.mod_lt _ (by norm_num))

/-! ## Waterfall calculator (`calculateAmericanWaterfall`)

The source memoizes results in `waterfallCache`; since the function is a
pure function of its four scalar arguments, the cache is semantically
transparent and the model is the pure function. -/

/-- American waterfall distribution (source lines 421-483). -/
def calculateAmericanWaterfall (totalInvested totalExitValue carryPct hurdleRate : ℚ) :
    WaterfallSummary :=
  let invested := totalInvested
  let exitValue := totalExitValue
  let profit := exitValue - invested
  if profit ≤ 0 then
    { totalInvested := totalInvested
      totalExitValue := totalExitValue
      totalProfit := 0
      lpReturnOfCapital := min totalExitValue totalInvested
      lpPreferredReturn := 0
      gpCatchUp := 0
      gpCarry := 0
      lpCarry := 0
      finalLpProceeds := totalExitValue
      finalGpProceeds := 0 }
  else
    let lpReturnOfCapital := invested
    let preferredReturn := invested * hurdleRate
    let lpPreferredReturn := preferredReturn
    let profitAfterHurdle := profit - preferredReturn
    let gpCarry := max 0 (profitAfterHurdle * carryPct)
    let lpCarry := profitAfterHurdle - gpCarry
    { totalInvested := totalInvested
      totalExitValue := totalExitValue
      totalProfit := profit
      lpReturnOfCapital := lpReturnOfCapital
      lpPreferredReturn := lpPreferredReturn
      gpCatchUp := 0
      gpCarry := gpCarry
      lpCarry := lpCarry
      finalLpProceeds := lpReturnOfCapital + lpPreferredReturn + lpCarry
      finalGpProceeds := gpCarry }

/-! ## IRR solver (`calculateIRR`) -/

/-- One pass over the cash flows computing the net present value and its
derivative with respect to the rate (the inner `for j` loop). -/
def npvAndDeriv (cashFlows : List ℚ) (rate : ℚ) : ℚ × ℚ :=
  (cashFlows.enum.foldl
    (fun acc p =>
      let j : ℕ := p.1
      let cf := p.2
      let discountFactor : ℚ := (1 + rate) ^ j
      (acc.1 + cf / discountFactor, acc.2 - ((j : ℚ) * cf) / (discountFactor * (1 + rate))))
    (0, 0))

/-- The Newton-Raphson loop of `calculateIRR`: at most `fuel` iterations,
stopping when `|npv|` or `|dnpv|` falls below the tolerance, clamping the
rate to `[-0.99, 10]` after every step. -/
def irrLoop : ℕ → ℚ → List ℚ → ℚ
  | 0, rate, _ => rate
  | fuel + 1, rate, cashFlows =>
    let nd := npvAndDeriv cashFlows rate
    let npv := nd.1
    let dnpv := nd.2
    if |npv| < 1 / 1000000 then rate
    else if |dnpv| < 1 / 1000000 then rate
    else
      let newRate := rate - npv / dnpv
      let clamped :=
        if newRate < -(99 / 100) then -(99 / 100)
        else if 10 < newRate then 10
        else newRate
      irrLoop fuel clamped cashFlows

/-- IRR via Newton-Raphson (source lines 486-521).  Returns 0 for an
empty input or one with no sign change.  The final `isNaN/isFinite`
fallback of the source never fires in the exact model, where every
computed rate is a finite rational. -/
def calculateIRR (cashFlows : List ℚ) : ℚ :=
  if cashFlows.isEmpty then 0
  else
    let hasPositive := cashFlows.any fun cf => decide (0 < cf)
    let hasNegative := cashFlows.any fun cf => decide (cf < 0)
    if !hasPositive || !hasNegative then 0
    else irrLoop 50 (1 / 10) cashFlows

/-- The inner NPV/derivative loop of `calculateIRR` over JavaScript
numbers (used by the timeline, whose cash-flow arrays can carry
`Infinity`/`NaN` entries). -/
def npvAndDerivJS (cashFlows : List JSRat) (rate : JSRat) : JSRat × JSRat :=
  (cashFlows.enum.foldl
    (fun acc p =>
      let j : ℕ := p.1
      let cf := p.2
      let discountFactor := (JSRat.add (JSRat.fin 1) rate).pow j
      (JSRat.add acc.1 (JSRat.div cf discountFactor),
        JSRat.sub acc.2 (JSRat.div (JSRat.mul (JSRat.fin (j : ℚ)) cf)
          (JSRat.mul discountFactor (JSRat.add (JSRat.fin 1) rate)))))
    (JSRat.fin 0, JSRat.fin 0))

/-- The Newton-Raphson loop of `calculateIRR` over JavaScript numbers:
comparisons against `NaN` are false, so a `NaN` rate passes both break
checks and both clamp checks unchanged. -/
def irrLoopJS : ℕ → JSRat → List JSRat → JSRat
  | 0, rate, _ => rate
  | fuel + 1, rate, cashFlows =>
    let nd := npvAndDerivJS cashFlows rate
    let npv := nd.1
    let dnpv := nd.2
    if JSRat.lt npv.abs (JSRat.fin (1 / 1000000)) then rate
    else if JSRat.lt dnpv.abs (JSRat.fin (1 / 1000000)) then rate
    else
      let newRate := JSRat.sub rate (JSRat.div npv dnpv)
      let clamped :=
        if JSRat.lt newRate (JSRat.fin (-(99 / 100))) then JSRat.fin (-(99 / 100))
        else if JSRat.lt (JSRat.fin 10) newRate then JSRat.fin 10
        else newRate
      irrLoopJS fuel clamped cashFlows

/-- The IRR solver (source lines 486-521) over JavaScript numbers, as
invoked by the timeline builder; the final `isNaN(rate) ||
!isFinite(rate)` fallback maps every non-finite rate to 0.  On finite
inputs this coincides with `calculateIRR` above, which claims C4 and C6
are stated against. -/
def calculateIRRJS (cashFlows : List JSRat) : JSRat :=
  if cashFlows.isEmpty then JSRat.fin 0
  else
    let hasPositive := cashFlows.any fun cf => JSRat.lt (JSRat.fin 0) cf
    let hasNegative := cashFlows.any fun cf => JSRat.lt cf (JSRat.fin 0)
    if !hasPositive || !hasNegative then JSRat.fin 0
    else
      match irrLoopJS 50 (JSRat.fin (1 / 10)) cashFlows with
      | JSRat.fin q => JSRat.fin q
      | _ => JSRat.fin 0

/-! ## Claim C1: waterfall conservation -/

/-- C1: for nonnegative invested capital, exit value and hurdle rate and
any carry, the waterfall conserves value: when `exitValue > invested`,
`finalLpProceeds + finalGpProceeds = exitValue`; and when
`exitValue ≤ invested`, all exit value is LP proceeds, GP proceeds are
zero, the LP return of capital is `min(exitValue, invested)`, and carry
and preferred return are zero. -/
theorem c1_waterfall_conservation (ti te carry hurdle : ℚ)
    (hti : 0 ≤ ti) (hte : 0 ≤ te) (hh : 0 ≤ hurdle) :
    (ti < te →
      (calculateAmericanWaterfall ti te carry hurdle).finalLpProceeds +
        (calculateAmericanWaterfall ti te carry hurdle).finalGpProceeds = te) ∧
    (te ≤ ti →
      (calculateAmericanWaterfall ti te carry hurdle).finalLpProceeds = te ∧
      (calculateAmericanWaterfall ti te carry hurdle).finalGpProceeds = 0 ∧
      (calculateAmericanWaterfall ti te carry hurdle).lpReturnOfCapital = min te ti ∧
      (calculateAmericanWaterfall ti te carry hurdle).gpCarry = 0 ∧
      (calculateAmericanWaterfall ti te carry hurdle).lpPreferredReturn = 0) := by
  unfold calculateAmericanWaterfall
  constructor
  · intro hlt
    have hprof : ¬ (te - ti ≤ 0) := by linarith
    simp only [hprof, if_false]
    ring
  · intro hle
    have hprof : te - ti ≤ 0 := by linarith
    simp [hprof]

/-- Witness for C1 at invested 100, exit value 150, carry 20%, hurdle 8%. -/
theorem c1_waterfall_conservation_witness :
    (0 : ℚ) ≤ 100 ∧ (0 : ℚ) ≤ 150 ∧ (0 : ℚ) ≤ 2 / 25 ∧
    (((100 : ℚ) < 150 →
      (calculateAmericanWaterfall 100 150 (1 / 5) (2 / 25)).finalLpProceeds +
        (calculateAmericanWaterfall 100 150 (1 / 5) (2 / 25)).finalGpProceeds = 150) ∧
    ((150 : ℚ) ≤ 100 →
      (calculateAmericanWaterfall 100 150 (1 / 5) (2 / 25)).finalLpProceeds = 150 ∧
      (calculateAmericanWaterfall 100 150 (1 / 5) (2 / 25)).finalGpProceeds = 0 ∧
      (calculateAmericanWaterfall 100 150 (1 / 5) (2 / 25)).lpReturnOfCapital = min 150 100 ∧
      (calculateAmericanWaterfall 100 150 (1 / 5) (2 / 25)).gpCarry = 0 ∧
      (calculateAmericanWaterfall 100 150 (1 / 5) (2 / 25)).lpPreferredReturn = 0)) :=
  ⟨by norm_num, by norm_num, by norm_num,
    c1_waterfall_conservation 100 150 (1 / 5) (2 / 25)
      (by norm_num) (by norm_num) (by norm_num)⟩

/-! ## Claim C4: IRR degeneracy -/

/-- C4: `calculateIRR` returns exactly 0 on an empty input and on any
input without a sign change (no strictly positive entry, or no strictly
negative entry). -/
theorem c4_irr_degeneracy (cashFlows : List ℚ)
    (h : cashFlows = [] ∨ (∀ x ∈ cashFlows, x ≤ 0) ∨ (∀ x ∈ cashFlows, 0 ≤ x)) :
    calculateIRR cashFlows = 0 := by
  unfold calculateIRR
  rcases h with h | h | h
  · simp [h]
  · rcases cashFlows with _ | ⟨c, cs⟩
    · simp
    · have hpos : ((c :: cs).any fun cf => decide (0 < cf)) = false := by
        simp only [List.any_eq_false, decide_eq_true_eq]
        intro x hx
        exact not_lt.mpr (h x hx)
      simp [hpos]
  · rcases cashFlows with _ | ⟨c, cs⟩
    · simp
    · have hneg : ((c :: cs).any fun cf => decide (cf < 0)) = false := by
        simp only [List.any_eq_false, decide_eq_true_eq]
        intro x hx
        exact not_lt.mpr (h x hx)
      simp [hneg]

/-- Witness for C4 at the claimed inputs `[100, 200, 50]` and `[]`. -/
theorem c4_irr_degeneracy_witness :
    calculateIRR [100, 200, 50] = 0 ∧ calculateIRR [] = 0 :=
  ⟨c4_irr_degeneracy [100, 200, 50] (Or.inr (Or.inr (by norm_num))),
    c4_irr_degeneracy [] (Or.inl rfl)⟩


/-! ## Validation (`validateEnhancedInputs`, source lines 132-252)

In the exact model every numeric field is a rational, so the
`isValidNumber` / `isValidStageStrategy` type guards of the source are
identically true: the `INVALID_STAGE_STRATEGY`, `INVALID_MGMT_FEE` and
`INVALID_CARRY` branches (which fire only on `NaN` / `Infinity` /
non-number inputs) are unreachable, and the
`filter(isValidStageStrategy)` before the allocation sum is the
identity.  Each push block of the source is one definition below, and
`validateEnhancedInputs` concatenates them in push order. -/

/-- JavaScript `Number.toFixed(1)`: round to one decimal, half away from
zero (exact halves may round differently in binary floats; the message
strings are not load-bearing for any claim). -/
def toFixed1 (q : ℚ) : String :=
  let scaled : ℤ := if q < 0 then -(-q * 10 + 1 / 2).floor else (q * 10 + 1 / 2).floor
  let sign := if scaled < 0 then "-" else ""
  let n := scaled.natAbs
  sign ++ toString (n / 10) ++ "." ++ toString (n % 10)

/-- The fund-size check (source lines 136-143). -/
def fundSizeIssues (inputs : EnhancedFundInputs) : List ValidationError :=
  if inputs.fundSize ≤ 0 then
    [{ field := "fundSize"
       message := "Fund size must be a positive number"
       code := "INVALID_FUND_SIZE"
       severity := Severity.error }]
  else []

/-- Validation issues for one indexed stage strategy (body of the
`forEach` at source lines 155-183). -/
def strategyIssues (p : ℕ × StageStrategy) : List ValidationError :=
  let i := p.1
  let s := p.2
  (if s.avgInvestmentSize ≤ 0 then
    [{ field := "stageStrategies[" ++ toString i ++ "].avgInvestmentSize"
       message := "Average investment size must be positive for " ++ s.stage
       code := "INVALID_INVESTMENT_SIZE"
       severity := Severity.error }]
  else []) ++
  (if s.allocationPct < 0 ∨ 1 < s.allocationPct then
    [{ field := "stageStrategies[" ++ toString i ++ "].allocationPct"
       message := "Allocation percentage must be between 0 and 1 for " ++ s.stage
       code := "INVALID_ALLOCATION_PCT"
       severity := Severity.error }]
  else [])

/-- The stage-strategies section (source lines 146-198): a hard error on
an empty list, otherwise the per-strategy checks followed by the
allocation-sum check. -/
def strategyListIssues (inputs : EnhancedFundInputs) : List ValidationError :=
  if inputs.stageStrategies.isEmpty then
    [{ field := "stageStrategies"
       message := "At least one stage strategy is required"
       code := "MISSING_STAGE_STRATEGIES"
       severity := Severity.error }]
  else
    let totalAllocation : ℚ := (inputs.stageStrategies.map (·.allocationPct)).sum
    (inputs.stageStrategies.enum.map strategyIssues).flatten ++
    (if (1 : ℚ) / 100 < |totalAllocation - 1| then
      [{ field := "stageStrategies"
         message := "Stage allocations must sum to 100% (currently " ++
           toFixed1 (totalAllocation * 100) ++ "%)"
         code := "INVALID_ALLOCATION_SUM"
         severity := Severity.error }]
    else [])

/-- The management-fee range check (source lines 201-215); the
`INVALID_MGMT_FEE` hard error is unreachable over exact rationals. -/
def feeRateIssues (inputs : EnhancedFundInputs) : List ValidationError :=
  if inputs.managementFeeRate < 0 ∨ (1 : ℚ) / 10 < inputs.managementFeeRate then
    [{ field := "managementFeeRate"
       message := "Management fee rate should be between 0% and 10%"
       code := "INVALID_MGMT_FEE_RANGE"
       severity := Severity.warning }]
  else []

/-- The carry range check (source lines 218-232); the `INVALID_CARRY`
hard error is unreachable over exact rationals. -/
def carryRangeIssues (inputs : EnhancedFundInputs) : List ValidationError :=
  if inputs.carryPct < 0 ∨ (1 : ℚ) / 2 < inputs.carryPct then
    [{ field := "carryPct"
       message := "Carry percentage should be between 0% and 50%"
       code := "INVALID_CARRY_RANGE"
       severity := Severity.warning }]
  else []

/-- The reserve-sufficiency check (source lines 234-249).  The source
divides by `investableCapital`; when that is zero the numerator is zero
as well, the JavaScript ratio is `NaN`, and `NaN < 0.1` is false, so
the warning is skipped — the model keeps this behaviour with an
explicit zero test on the denominator. -/
def reserveIssues (inputs : EnhancedFundInputs) : List ValidationError :=
  let totalManagementFees := inputs.fundSize * inputs.managementFeeRate * inputs.fundLifeYears
  let investableCapital := inputs.fundSize - totalManagementFees
  let totalPlannedInvestment :=
    (inputs.stageStrategies.map fun s => s.allocationPct * investableCapital).sum
  let reserveRatio := (investableCapital - totalPlannedInvestment) / investableCapital
  if investableCapital ≠ 0 ∧ reserveRatio < (1 : ℚ) / 10 then
    [{ field := "reserves"
       message := "Low reserve ratio: " ++ toFixed1 (reserveRatio * 100) ++
         "%. Consider reserving 20-30% for follow-ons."
       code := "LOW_RESERVES"
       severity := Severity.warning }]
  else []

/-- Input validation (source lines 132-252): the sections in push order. -/
def validateEnhancedInputs (inputs : EnhancedFundInputs) : List ValidationError :=
  fundSizeIssues inputs ++ strategyListIssues inputs ++ feeRateIssues inputs ++
    carryRangeIssues inputs ++ reserveIssues inputs

/-! ## Claim C10: the LOW_RESERVES warning -/

/-- A configuration with `fundSize = 0` whose single allocation sums to
exactly 1: it passes the allocation-sum check, but its investable
capital is zero, so the reserve-ratio check is skipped. -/
def cfgZeroFund : EnhancedFundInputs :=
  { fundName := "Zero Fund"
    fundSize := 0
    managementFeeRate := 1 / 50
    carryPct := 1 / 5
    hurdleRate := 0
    gpCommitmentPct := 2
    includeGpInFees := false
    fundLifeYears := 10
    investmentPeriodYears := 5
    fundLifeQuarters := 40
    investPeriodQuarters := 20
    stageStrategies :=
      [{ stage := "Seed", allocationPct := 1, avgInvestmentSize := 1000000,
         graduationRate := 7 / 20, weightedExitValue := 39500000,
         exitMultiple := 20, avgExitQuarter := 20 }]
    graduationMatrix := []
    exitProbabilityMatrix := [("Seed", { fail := 1, low := 0, med := 0, high := 0, mega := 0 })] }

unseal Rat.add Rat.mul Rat.inv Rat.sub in
/-- Counterexample to C10 as stated: `cfgZeroFund` passes the
allocation-sum check (its allocations sum to exactly 1), yet validation
produces no `LOW_RESERVES` issue, because the investable capital is zero
and the reserve ratio is `NaN` in the source. -/
theorem c10_reserves_counterexample :
    |((cfgZeroFund.stageStrategies.map (·.allocationPct)).sum - 1)| ≤ 1 / 100 ∧
    (validateEnhancedInputs cfgZeroFund).all (fun e => e.code ≠ "LOW_RESERVES") = true := by
  constructor
  · norm_num [cfgZeroFund]
  · decide

/-- C10 (amended): whenever the allocation percentages sum to within
0.01 of 1 and the investable capital
`fundSize - fundSize * managementFeeRate * fundLifeYears` is nonzero,
validation includes a warning-severity `LOW_RESERVES` issue, since the
reserve ratio it computes equals 1 minus the allocation sum and is hence
below the 0.1 threshold.  (When the investable capital is zero the ratio
is `NaN` in the source and the warning is skipped.) -/
theorem c10_low_reserves_always (inputs : EnhancedFundInputs)
    (halloc : |((inputs.stageStrategies.map (·.allocationPct)).sum - 1)| ≤ 1 / 100)
    (hinv : inputs.fundSize - inputs.fundSize * inputs.managementFeeRate * inputs.fundLifeYears ≠ 0) :
    ∃ e ∈ validateEnhancedInputs inputs,
      e.code = "LOW_RESERVES" ∧ e.severity = Severity.warning := by
  set S : ℚ := (inputs.stageStrategies.map (·.allocationPct)).sum with hS
  set inv : ℚ :=
    inputs.fundSize - inputs.fundSize * inputs.managementFeeRate * inputs.fundLifeYears
    with hinvdef
  have hplanned :
      (inputs.stageStrategies.map fun s => s.allocationPct * inv).sum = S * inv := by
    rw [hS]
    induction inputs.stageStrategies with
    | nil => simp
    | cons a l ih => simp [ih, add_mul]
  have hSge : (99 : ℚ) / 100 ≤ S := by
    have h := abs_le.mp halloc
    linarith [h.1]
  have hlt : (inv - (inputs.stageStrategies.map fun s => s.allocationPct * inv).sum) / inv
      < 1 / 10 := by
    rw [hplanned, show inv - S * inv = (1 - S) * inv by ring,
      mul_div_cancel_right₀ _ hinv]
    linarith
  have hmem : ∃ e ∈ reserveIssues inputs,
      e.code = "LOW_RESERVES" ∧ e.severity = Severity.warning := by
    unfold reserveIssues
    rw [if_pos ⟨hinv, hlt⟩]
    exact ⟨_, List.mem_singleton_self _, rfl, rfl⟩
  obtain ⟨e, he, hprop⟩ := hmem
  exact ⟨e, by
    unfold validateEnhancedInputs
    exact List.mem_append_right _ he, hprop⟩

/-- Witness for C10 (amended) at a 20M fund with a single full
allocation: the warning is present. -/
theorem c10_low_reserves_always_witness :
    ∃ e ∈ validateEnhancedInputs { cfgZeroFund with fundSize := 20000000 },
      e.code = "LOW_RESERVES" ∧ e.severity = Severity.warning :=
  c10_low_reserves_always { cfgZeroFund with fundSize := 20000000 }
    (by norm_num [cfgZeroFund]) (by norm_num [cfgZeroFund])

/-! ## Default configuration data (source lines 26-87) -/

/-- The default stage strategies (`DEFAULT_STAGE_STRATEGIES`). -/
def DEFAULT_STAGE_STRATEGIES : List StageStrategy :=
  [{ stage := "Pre-Seed", allocationPct := 43 / 100, avgInvestmentSize := 250000,
     graduationRate := 30 / 100, weightedExitValue := 17500000,
     exitMultiple := 15, avgExitQuarter := 16 },
   { stage := "Seed", allocationPct := 43 / 100, avgInvestmentSize := 400000,
     graduationRate := 35 / 100, weightedExitValue := 39500000,
     exitMultiple := 20, avgExitQuarter := 20 },
   { stage := "Series A", allocationPct := 14 / 100, avgInvestmentSize := 600000,
     graduationRate := 50 / 100, weightedExitValue := 71750000,
     exitMultiple := 12, avgExitQuarter := 24 }]

/-- The default graduation matrix (`DEFAULT_GRADUATION_MATRIX`). -/
def DEFAULT_GRADUATION_MATRIX : GraduationMatrix :=
  [("Pre-Seed", [("Seed", 30 / 100), ("Series A", 12 / 100), ("Series B", 6 / 100)]),
   ("Seed", [("Series A", 35 / 100), ("Series B", 20 / 100), ("Series C", 12 / 100)]),
   ("Series A", [("Series B", 50 / 100), ("Series C", 30 / 100), ("Series D+", 21 / 100)]),
   ("Series B", [("Series C", 50 / 100), ("Series D+", 35 / 100)]),
   ("Series C", [("Series D+", 60 / 100)]),
   ("Series D+", [("Exit", 1)])]

/-- The default exit-probability matrix (`DEFAULT_EXIT_PROBABILITIES`). -/
def DEFAULT_EXIT_PROBABILITIES : ExitProbabilityMatrix :=
  [("Pre-Seed", { fail := 90 / 100, low := 6 / 100, med := 2 / 100, high := 1 / 100, mega := 1 / 100 }),
   ("Seed", { fail := 80 / 100, low := 10 / 100, med := 5 / 100, high := 3 / 100, mega := 2 / 100 }),
   ("Series A", { fail := 65 / 100, low := 15 / 100, med := 10 / 100, high := 7 / 100, mega := 3 / 100 }),
   ("Series B", { fail := 50 / 100, low := 20 / 100, med := 15 / 100, high := 10 / 100, mega := 5 / 100 }),
   ("Series C", { fail := 35 / 100, low := 25 / 100, med := 20 / 100, high := 15 / 100, mega := 5 / 100 }),
   ("Series D+", { fail := 10 / 100, low := 20 / 100, med := 30 / 100, high := 25 / 100, mega := 15 / 100 })]

/-! ## Portfolio generation (`buildPortfolioFromStrategy`, source lines 257-361)

The builder reseeds its deterministic generator with the constant 12345
on every call, so its computation on a cache miss is a pure function of
the inputs (`buildPortfolioUncached` below).  The source additionally
memoizes the built portfolio in the module-level `portfolioCache`,
keyed by `JSON.stringify({fundSize, stageStrategies, managementFeeRate,
fundLifeYears})` — a key that omits `gpCommitmentPct`,
`includeGpInFees`, `investPeriodQuarters` and `exitProbabilityMatrix`,
all of which the builder reads.  The cache is therefore not transparent
(a hit may return a portfolio computed from different earlier inputs)
and is modelled as explicit state in `buildPortfolioFromStrategy`. -/

/-- The company id slug: `stage.toLowerCase().replace(/\s+/g, '-')`,
collapsing each maximal whitespace run into a single dash. -/
def slugChars : Bool → List Char → List Char
  | _, [] => []
  | prevWs, ch :: cs =>
    if ch.isWhitespace then
      if prevWs then slugChars true cs
      else Char.ofNat 45 :: slugChars true cs
    else ch.toLower :: slugChars false cs

/-- Lowercased, whitespace-collapsed stage slug used in company ids. -/
def slugify (s : String) : String := String.mk (slugChars false s.data)

/-- Exit probabilities for a stage:
`inputs.exitProbabilityMatrix[stage] || DEFAULT_EXIT_PROBABILITIES[stage]`.
A stage missing from both matrices is a `TypeError` at the subsequent
`.fail` access in the source; the all-zero record keeps the model total
and is unreachable for every configuration used in the claims. -/
def exitProbsFor (inputs : EnhancedFundInputs) (stage : String) : ExitProbs :=
  ((inputs.exitProbabilityMatrix.lookup stage).or
    (DEFAULT_EXIT_PROBABILITIES.lookup stage)).getD
    { fail := 0, low := 0, med := 0, high := 0, mega := 0 }

/-- The placeholder an out-of-range `investments[0]` access would
produce; every company built by the engine has a nonempty investment
list, so this value is never read on the paths the claims exercise. -/
def defaultInvestment : Investment :=
  { stage := "", amount := 0, quarter := 0, ownership := 0, isFollowOn := false }

/-- Investable capital as computed by the portfolio builder (source
lines 274-280): fund size minus total management fees over the fund
life, where the fee base is the full fund size when GP commitment is
included in fees and the LP commitment otherwise. -/
def investableCapital (inputs : EnhancedFundInputs) : ℚ :=
  let gpCommitment := inputs.fundSize * inputs.gpCommitmentPct / 100
  let lpCommitment := inputs.fundSize - gpCommitment
  let feeBase := if inputs.includeGpInFees then inputs.fundSize else lpCommitment
  let totalManagementFees := feeBase * inputs.managementFeeRate * inputs.fundLifeYears
  inputs.fundSize - totalManagementFees

/-- The number of companies created for one stage strategy:
`Math.floor(stageCapital / avgInvestmentSize)`.  A negative floor makes
the `for` loop body run zero times, which `Int.toNat` models. -/
def numCompaniesFor (inputs : EnhancedFundInputs) (s : StageStrategy) : ℕ :=
  (investableCapital inputs * s.allocationPct / s.avgInvestmentSize).floor.toNat

/-- Build one portfolio company (loop body at source lines 294-350):
one draw for the investment quarter, one draw for the exit-outcome
bucket, one draw for the within-bucket multiple unless the outcome is a
failure, and one draw for the exit quarter when the multiple is
positive. -/
def buildCompany (inputs : EnhancedFundInputs) (strategyIndex : ℕ) (s : StageStrategy)
    (i : ℕ) (seed : ℕ) : PortfolioCompany × ℕ :=
  let companyId := slugify s.stage ++ "-" ++ toString strategyIndex ++ "-" ++ toString (i + 1)
  let s1 := lcgNextSeed seed
  let initialInvestment : Investment :=
    { stage := s.stage
      amount := s.avgInvestmentSize
      quarter := (((s1 : ℚ) / 2147483647) * (inputs.investPeriodQuarters : ℚ)).floor
      ownership := 5 / 100
      isFollowOn := false }
  let exitProbs := exitProbsFor inputs s.stage
  let s2 := lcgNextSeed s1
  let random := (s2 : ℚ) / 2147483647
  let cumFail := exitProbs.fail
  let cumLow := exitProbs.fail + exitProbs.low
  let cumMed := exitProbs.fail + exitProbs.low + exitProbs.med
  let cumHigh := exitProbs.fail + exitProbs.low + exitProbs.med + exitProbs.high
  let step : ℚ × ℕ :=
    if random ≤ cumFail then (0, s2)
    else if random ≤ cumLow then
      let sn := lcgNextSeed s2
      (1 + ((sn : ℚ) / 2147483647) * 2, sn)
    else if random ≤ cumMed then
      let sn := lcgNextSeed s2
      (3 + ((sn : ℚ) / 2147483647) * 7, sn)
    else if random ≤ cumHigh then
      let sn := lcgNextSeed s2
      (10 + ((sn : ℚ) / 2147483647) * 40, sn)
    else
      let sn := lcgNextSeed s2
      (50 + ((sn : ℚ) / 2147483647) * 100, sn)
  let exitMultiple := step.1
  let s3 := step.2
  let quarterStep : Option ℚ × ℕ :=
    if 0 < exitMultiple then
      let sn := lcgNextSeed s3
      (some (s.avgExitQuarter + (((((sn : ℚ) / 2147483647) * 8).floor : ℤ) : ℚ)), sn)
    else (none, s3)
  let company : PortfolioCompany :=
    { id := companyId
      name := s.stage ++ " Company " ++ toString (i + 1)
      entryStage := s.stage
      currentStage := s.stage
      investments := [initialInvestment]
      totalInvested := s.avgInvestmentSize
      exitValue := if 0 < exitMultiple then s.avgInvestmentSize * exitMultiple else 0
      exitQuarter := quarterStep.1
      status := if 0 < exitMultiple then CompanyStatus.active else CompanyStatus.writtenOff }
  (company, quarterStep.2)

/-- Build `count` companies for one strategy, starting at company index
`i`, threading the generator state. -/
def buildCompanies (inputs : EnhancedFundInputs) (strategyIndex : ℕ) (s : StageStrategy) :
    ℕ → ℕ → ℕ → List PortfolioCompany × ℕ
  | 0, _, seed => ([], seed)
  | count + 1, i, seed =>
    let built := buildCompany inputs strategyIndex s i seed
    let rest := buildCompanies inputs strategyIndex s count (i + 1) built.2
    (built.1 :: rest.1, rest.2)

/-- Fold over the indexed stage strategies (the `forEach` at source
line 290), threading the generator state across strategies. -/
def buildGo (inputs : EnhancedFundInputs) :
    List (ℕ × StageStrategy) → ℕ → List PortfolioCompany × ℕ
  | [], seed => ([], seed)
  | p :: rest, seed =>
    let block := buildCompanies inputs p.1 p.2 (numCompaniesFor inputs p.2) 0 seed
    let restBuilt := buildGo inputs rest block.2
    (block.1 ++ restBuilt.1, restBuilt.2)

/-- Portfolio generation on a cache miss (source lines 271-351), with
the deterministic generator seeded at 12345; a pure function of the
inputs. -/
def buildPortfolioUncached (inputs : EnhancedFundInputs) : List PortfolioCompany :=
  (buildGo inputs inputs.stageStrategies.enum 12345).1

/-- The cache capacity shared by all three module caches (source
line 23). -/
def CACHE_SIZE_LIMIT : ℕ := 100

/-- The `portfolioCache` key (source lines 259-264):
`JSON.stringify({fundSize, stageStrategies, managementFeeRate,
fundLifeYears})`.  The serialization is injective on these four fields,
so the key is modelled by the field tuple itself; note that the fields
the key omits still influence the built portfolio. -/
structure PortfolioCacheKey where
  fundSize : ℚ
  stageStrategies : List StageStrategy
  managementFeeRate : ℚ
  fundLifeYears : ℚ
deriving DecidableEq, Repr

/-- The `portfolioCache` contents, in insertion order (oldest first). -/
abbrev PortfolioCache := List (PortfolioCacheKey × List PortfolioCompany)

/-- The cache key of a configuration. -/
def portfolioCacheKey (inputs : EnhancedFundInputs) : PortfolioCacheKey :=
  { fundSize := inputs.fundSize
    stageStrategies := inputs.stageStrategies
    managementFeeRate := inputs.managementFeeRate
    fundLifeYears := inputs.fundLifeYears }

/-- Lookup modelling `portfolioCache.has/get`. -/
def portfolioCacheLookup (cache : PortfolioCache) (k : PortfolioCacheKey) :
    Option (List PortfolioCompany) :=
  (cache.find? fun p => p.1 == k).map (·.2)

/-- Portfolio generation (source lines 257-361): the partial-key cache
check and early return, then the pure builder and a FIFO store.  A hit
returns the stored portfolio even when the current inputs differ in a
field the key omits. -/
def buildPortfolioFromStrategy (cache : PortfolioCache) (inputs : EnhancedFundInputs) :
    List PortfolioCompany × PortfolioCache :=
  let cacheKey := portfolioCacheKey inputs
  match portfolioCacheLookup cache cacheKey with
  | some portfolio => (portfolio, cache)
  | none =>
    let portfolio := buildPortfolioUncached inputs
    let trimmed := if CACHE_SIZE_LIMIT ≤ cache.length then cache.drop 1 else cache
    (portfolio, trimmed ++ [(cacheKey, portfolio)])

/-! ## Portfolio progression (`simulatePortfolioProgression`, source
lines 364-416) -/

/-- The stage markup table applied to the exit value on graduation
(`stageMultiplier[toStage] || 1.0`). -/
def stageMultiplier (toStage : String) : ℚ :=
  (([("Seed", 6 / 5), ("Series A", 3 / 2), ("Series B", 9 / 5),
     ("Series C", 2), ("Series D+", 5 / 2)] : List (String × ℚ)).lookup toStage).getD 1

/-- The inner graduation loop over one company's graduation-matrix row
(source lines 382-412): one draw per destination; on the first
successful draw of an active company, append a follow-on investment,
bump the invested total, move the stage, scale a nonzero exit value by
the stage markup, and stop. -/
def progressLoop (c : PortfolioCompany) :
    List (String × ℚ) → ℕ → PortfolioCompany × ℕ
  | [], seed => (c, seed)
  | entry :: rest, seed =>
    let toStage := entry.1
    let rate := entry.2
    let s1 := lcgNextSeed seed
    let draw := (s1 : ℚ) / 2147483647
    if draw < rate ∧ c.status = CompanyStatus.active then
      let s2 := lcgNextSeed s1
      let followOnAmount :=
        (c.investments.headD defaultInvestment).amount * (1 / 2 + ((s2 : ℚ) / 2147483647) * 1)
      let s3 := lcgNextSeed s2
      let followOnInvestment : Investment :=
        { stage := toStage
          amount := followOnAmount
          quarter := (c.investments.headD defaultInvestment).quarter + 4 +
            (((s3 : ℚ) / 2147483647) * 8).floor
          ownership := 3 / 100
          isFollowOn := true }
      let graduated :=
        { c with
          investments := c.investments ++ [followOnInvestment]
          totalInvested := c.totalInvested + followOnAmount
          currentStage := toStage }
      let withMarkup :=
        if graduated.exitValue ≠ 0 then
          { graduated with exitValue := graduated.exitValue * stageMultiplier toStage }
        else graduated
      (withMarkup, s3)
    else progressLoop c rest s1

/-- The graduation-matrix row used for a company:
`inputs.graduationMatrix[company.currentStage] || {}`. -/
def gradRowFor (inputs : EnhancedFundInputs) (c : PortfolioCompany) : List (String × ℚ) :=
  (inputs.graduationMatrix.lookup c.currentStage).getD []

/-- Progress one company (the `map` body at source lines 375-415). -/
def progressCompany (inputs : EnhancedFundInputs) (c : PortfolioCompany) (seed : ℕ) :
    PortfolioCompany × ℕ :=
  progressLoop c (gradRowFor inputs c) seed

/-- Sequential progression over the portfolio, threading the generator
state left to right (the closure over `seed` in the source). -/
def simGo (inputs : EnhancedFundInputs) :
    List PortfolioCompany → ℕ → List PortfolioCompany × ℕ
  | [], seed => ([], seed)
  | c :: rest, seed =>
    let stepped := progressCompany inputs c seed
    let restDone := simGo inputs rest stepped.2
    (stepped.1 :: restDone.1, restDone.2)

/-- Portfolio progression (source lines 364-416), with the deterministic
generator seeded at 67890. -/
def simulatePortfolioProgression (portfolio : List PortfolioCompany)
    (inputs : EnhancedFundInputs) : List PortfolioCompany :=
  (simGo inputs portfolio 67890).1

/-! ## Claim C8: company counts per stage strategy -/

theorem ratFloor_eq_intFloor (q : ℚ) : q.floor = ⌊q⌋ := by
  refine le_antisymm (Int.le_floor.mpr (Rat.le_floor.mp le_rfl)) (Rat.le_floor.mpr (Int.floor_le q))

theorem buildCompanies_length (inputs : EnhancedFundInputs) (idx : ℕ) (s : StageStrategy) :
    ∀ (n i seed : ℕ), ((buildCompanies inputs idx s n i seed).1).length = n := by
  intro n
  induction n with
  | zero => intro i seed; rfl
  | succ m ih =>
    intro i seed
    simp only [buildCompanies, List.length_cons]
    rw [ih]

theorem buildCompanies_entryStage (inputs : EnhancedFundInputs) (idx : ℕ) (s : StageStrategy) :
    ∀ (n i seed : ℕ), ∀ c ∈ (buildCompanies inputs idx s n i seed).1,
      c.entryStage = s.stage := by
  intro n
  induction n with
  | zero => intro i seed c hc; simp [buildCompanies] at hc
  | succ m ih =>
    intro i seed c hc
    simp only [buildCompanies, List.mem_cons] at hc
    rcases hc with hc | hc
    · subst hc; rfl
    · exact ih (i + 1) _ c hc

theorem buildCompanies_countP (inputs : EnhancedFundInputs) (idx : ℕ) (s : StageStrategy)
    (target : String) (n i seed : ℕ) :
    ((buildCompanies inputs idx s n i seed).1).countP (fun c => c.entryStage == target)
      = if s.stage == target then n else 0 := by
  by_cases h : s.stage = target
  · have : ∀ c ∈ (buildCompanies inputs idx s n i seed).1,
        (fun c : PortfolioCompany => c.entryStage == target) c = true := by
      intro c hc
      simp [buildCompanies_entryStage inputs idx s n i seed c hc, h]
    rw [List.countP_eq_length_filter, List.filter_eq_self.mpr this,
      buildCompanies_length, if_pos (by simp [h])]
  · have : ∀ c ∈ (buildCompanies inputs idx s n i seed).1,
        ¬ ((fun c : PortfolioCompany => c.entryStage == target) c = true) := by
      intro c hc
      simp [buildCompanies_entryStage inputs idx s n i seed c hc, h]
    rw [List.countP_eq_length_filter, List.filter_eq_nil_iff.mpr this, if_neg (by simp [h])]
    rfl

theorem buildGo_countP (inputs : EnhancedFundInputs) (target : String) :
    ∀ (l : List (ℕ × StageStrategy)) (seed : ℕ),
      ((buildGo inputs l seed).1).countP (fun c => c.entryStage == target)
        = (l.map (fun p =>
            if p.2.stage == target then numCompaniesFor inputs p.2 else 0)).sum := by
  intro l
  induction l with
  | nil => intro seed; rfl
  | cons p rest ih =>
    intro seed
    simp only [buildGo, List.countP_append, List.map_cons, List.sum_cons]
    rw [buildCompanies_countP, ih]

theorem sum_single_stage (g : StageStrategy → ℕ) :
    ∀ (strats : List StageStrategy) (i : ℕ) (hi : i < strats.length),
      (strats.map (·.stage)).Nodup →
      (strats.map (fun s =>
        if s.stage == (strats.get ⟨i, hi⟩).stage then g s else 0)).sum
        = g (strats.get ⟨i, hi⟩) := by
  intro strats
  induction strats with
  | nil => intro i hi; simp at hi
  | cons a rest ih =>
    intro i hi hnodup
    rcases i with _ | j
    · simp only [List.get, List.map_cons, List.sum_cons]
      have hrest : ∀ s ∈ rest, (if (s.stage == a.stage) = true then g s else 0) = 0 := by
        intro s hs
        have hne : s.stage ≠ a.stage := by
          intro he
          have : a.stage ∈ rest.map (·.stage) := by
            rw [← he]
            exact List.mem_map_of_mem _ hs
          exact (List.nodup_cons.mp hnodup).1 this
        simp [hne]
      rw [List.sum_eq_zero (by
        intro x hx
        obtain ⟨s, hs, rfl⟩ := List.mem_map.mp hx
        exact hrest s hs)]
      simp
    · have hj : j < rest.length := Nat.lt_of_succ_lt_succ hi
      have htail := ih j hj (List.nodup_cons.mp hnodup).2
      simp only [List.get, List.map_cons, List.sum_cons]
      have hne : a.stage ≠ (rest.get ⟨j, hj⟩).stage := by
        intro he
        have : a.stage ∈ rest.map (·.stage) := by
          rw [he]
          exact List.mem_map_of_mem _ (List.get_mem rest j hj)
        exact (List.nodup_cons.mp hnodup).1 this
      rw [if_neg (by simpa using hne), htail, Nat.zero_add]

/-- The cache-miss computation satisfies the count formula: the pure
builder creates exactly
`floor(investableCapital * allocationPct / avgInvestmentSize)` companies
per stage strategy. -/
theorem uncached_company_counts (inputs : EnhancedFundInputs) (i : ℕ)
    (hi : i < inputs.stageStrategies.length)
    (hnodup : (inputs.stageStrategies.map (·.stage)).Nodup)
    (hpos : 0 < (inputs.stageStrategies.get ⟨i, hi⟩).avgInvestmentSize)
    (halloc : 0 ≤ (inputs.stageStrategies.get ⟨i, hi⟩).allocationPct)
    (hinv : 0 ≤ investableCapital inputs) :
    (((buildPortfolioUncached inputs).filter
        (fun c => c.entryStage == (inputs.stageStrategies.get ⟨i, hi⟩).stage)).length : ℤ)
      = (investableCapital inputs * (inputs.stageStrategies.get ⟨i, hi⟩).allocationPct /
          (inputs.stageStrategies.get ⟨i, hi⟩).avgInvestmentSize).floor := by
  set s := inputs.stageStrategies.get ⟨i, hi⟩ with hs
  have hcount :
      ((buildPortfolioUncached inputs).filter
        (fun c => c.entryStage == s.stage)).length
        = numCompaniesFor inputs s := by
    rw [← List.countP_eq_length_filter]
    unfold buildPortfolioUncached
    rw [buildGo_countP]
    have hmap :
        (inputs.stageStrategies.enum.map (fun p =>
          if p.2.stage == s.stage then numCompaniesFor inputs p.2 else 0))
          = (inputs.stageStrategies.map (fun t =>
            if t.stage == s.stage then numCompaniesFor inputs t else 0)) := by
      rw [show (fun p : ℕ × StageStrategy =>
          if p.2.stage == s.stage then numCompaniesFor inputs p.2 else 0)
          = (fun t : StageStrategy =>
            if t.stage == s.stage then numCompaniesFor inputs t else 0) ∘ Prod.snd from rfl,
        ← List.map_map, List.enum_map_snd]
    rw [hmap, hs]
    exact sum_single_stage (numCompaniesFor inputs) inputs.stageStrategies i hi hnodup
  rw [hcount]
  unfold numCompaniesFor
  have hq : 0 ≤ investableCapital inputs * s.allocationPct / s.avgInvestmentSize := by
    apply div_nonneg (mul_nonneg hinv halloc) (le_of_lt hpos)
  rw [ratFloor_eq_intFloor, Int.toNat_of_nonneg (Int.floor_nonneg.mpr hq)]

/-- C8 (amended): on a portfolio-cache miss — in particular on a cold
cache or the first call with a given key — `buildPortfolioFromStrategy`
creates, for each stage strategy (with pairwise-distinct stage names, a
positive average check size, a nonnegative allocation and nonnegative
investable capital), exactly
`floor(investableCapital * allocationPct / avgInvestmentSize)` companies
of that stage, where `investableCapital` is the fund size minus
`feeBase * managementFeeRate * fundLifeYears` and `feeBase` is the fund
size when GP commitment is included in fees and the LP commitment
otherwise; fractional remainders are dropped, never rounded up.  (On a
cache hit the stored portfolio is returned unchanged, and since the
cache key omits `gpCommitmentPct` and `includeGpInFees`, its counts may
correspond to different earlier inputs.) -/
theorem c8_company_counts (cache : PortfolioCache) (inputs : EnhancedFundInputs) (i : ℕ)
    (hi : i < inputs.stageStrategies.length)
    (hmiss : portfolioCacheLookup cache (portfolioCacheKey inputs) = none)
    (hnodup : (inputs.stageStrategies.map (·.stage)).Nodup)
    (hpos : 0 < (inputs.stageStrategies.get ⟨i, hi⟩).avgInvestmentSize)
    (halloc : 0 ≤ (inputs.stageStrategies.get ⟨i, hi⟩).allocationPct)
    (hinv : 0 ≤ investableCapital inputs) :
    ((((buildPortfolioFromStrategy cache inputs).1).filter
        (fun c => c.entryStage == (inputs.stageStrategies.get ⟨i, hi⟩).stage)).length : ℤ)
      = (investableCapital inputs * (inputs.stageStrategies.get ⟨i, hi⟩).allocationPct /
          (inputs.stageStrategies.get ⟨i, hi⟩).avgInvestmentSize).floor := by
  have hfst : (buildPortfolioFromStrategy cache inputs).1 = buildPortfolioUncached inputs := by
    unfold buildPortfolioFromStrategy
    dsimp only
    rw [hmiss]
  rw [hfst]
  exact uncached_company_counts inputs i hi hnodup hpos halloc hinv

/-- The default configuration of the engine (`DEFAULT_FUND_PARAMS` with
the default strategies and matrices). -/
def cfgDefault : EnhancedFundInputs :=
  { fundName := "Press On Ventures Fund I"
    fundSize := 20000000
    managementFeeRate := 1 / 50
    carryPct := 1 / 5
    hurdleRate := 0
    gpCommitmentPct := 2
    includeGpInFees := false
    fundLifeYears := 10
    investmentPeriodYears := 5
    fundLifeQuarters := 40
    investPeriodQuarters := 20
    stageStrategies := DEFAULT_STAGE_STRATEGIES
    graduationMatrix := DEFAULT_GRADUATION_MATRIX
    exitProbabilityMatrix := DEFAULT_EXIT_PROBABILITIES }

/-- The default configuration with a 50% GP commitment — a field the
portfolio-cache key omits, so `cfgGpFifty` shares its cache key with
`cfgDefault` while its investable capital (18M instead of 16.08M)
differs. -/
def cfgGpFifty : EnhancedFundInputs := { cfgDefault with gpCommitmentPct := 50 }

unseal Rat.add Rat.mul Rat.inv Rat.sub in
/-- Counterexample to C8 as stated: after a first call at `cfgDefault`
populates the portfolio cache (27 Pre-Seed companies), a call at
`cfgGpFifty` — byte-identical on every key field but with a different
GP commitment — hits the stale entry and returns 27 Pre-Seed companies,
while the claimed formula demands `floor(18M * 0.43 / 250k) =
floor(30.96) = 30`. -/
theorem c8_stale_cache_counterexample :
    portfolioCacheKey cfgGpFifty = portfolioCacheKey cfgDefault ∧
    ((buildPortfolioFromStrategy
        (buildPortfolioFromStrategy [] cfgDefault).2 cfgGpFifty).1.filter
        (fun c => c.entryStage == "Pre-Seed")).length = 27 ∧
    (investableCapital cfgGpFifty *
        (cfgGpFifty.stageStrategies.get ⟨0, by decide⟩).allocationPct /
        (cfgGpFifty.stageStrategies.get ⟨0, by decide⟩).avgInvestmentSize).floor = 30 :=
  ⟨rfl, by decide, by decide⟩

unseal Rat.add Rat.mul Rat.inv Rat.sub in
/-- Witness for C8 (amended) at the default configuration on a cold
cache, first strategy (Pre-Seed): 16.08M investable, 43% allocation,
250k checks give exactly `floor(27.6576) = 27` companies. -/
theorem c8_company_counts_witness :
    portfolioCacheLookup [] (portfolioCacheKey cfgDefault) = none ∧
    (cfgDefault.stageStrategies.map (·.stage)).Nodup ∧
    (0 : ℚ) < (cfgDefault.stageStrategies.get ⟨0, by decide⟩).avgInvestmentSize ∧
    0 ≤ investableCapital cfgDefault ∧
    ((((buildPortfolioFromStrategy [] cfgDefault).1).filter
        (fun c => c.entryStage ==
          (cfgDefault.stageStrategies.get ⟨0, by decide⟩).stage)).length : ℤ)
      = (investableCapital cfgDefault *
          (cfgDefault.stageStrategies.get ⟨0, by decide⟩).allocationPct /
          (cfgDefault.stageStrategies.get ⟨0, by decide⟩).avgInvestmentSize).floor ∧
    (investableCapital cfgDefault *
        (cfgDefault.stageStrategies.get ⟨0, by decide⟩).allocationPct /
        (cfgDefault.stageStrategies.get ⟨0, by decide⟩).avgInvestmentSize).floor = 27 :=
  ⟨rfl, by decide, by decide, by decide,
    c8_company_counts [] cfgDefault 0 (by decide) rfl (by decide) (by decide) (by decide)
      (by decide),
    by decide⟩

/-! ## Claim C7: a company graduates at most once per pass -/

/-- The outcome of a successful graduation at position `k` of the row:
all earlier destinations failed their draws, destination `k` succeeded,
and the company gained exactly one follow-on investment (draw `k+1`
sizes it in `[0.5, 1.5)` of the initial check, draw `k+2` dates it 4-8
quarters after it), its stage moved to that destination, and its
invested total grew by exactly that amount; all other identifying
fields are unchanged. -/
def GraduationStep (row : List (String × ℚ)) (seed : ℕ) (c c' : PortfolioCompany) : Prop :=
  ∃ (k : ℕ) (hk : k < row.length),
    c.status = CompanyStatus.active ∧
    (∀ j (hj : j < k), ¬ (randAt seed j < (row.get ⟨j, lt_trans hj hk⟩).2)) ∧
    randAt seed k < (row.get ⟨k, hk⟩).2 ∧
    c'.investments = c.investments ++
      [{ stage := (row.get ⟨k, hk⟩).1
         amount := (c.investments.headD defaultInvestment).amount *
           (1 / 2 + randAt seed (k + 1) * 1)
         quarter := (c.investments.headD defaultInvestment).quarter + 4 +
           (randAt seed (k + 2) * 8).floor
         ownership := 3 / 100
         isFollowOn := true }] ∧
    c'.currentStage = (row.get ⟨k, hk⟩).1 ∧
    c'.totalInvested = c.totalInvested +
      (c.investments.headD defaultInvestment).amount * (1 / 2 + randAt seed (k + 1) * 1) ∧
    c'.id = c.id ∧ c'.name = c.name ∧ c'.entryStage = c.entryStage ∧
    c'.status = c.status ∧ c'.exitQuarter = c.exitQuarter

/-- The per-company progression contract: a non-active company is
returned unchanged, and any company is either unchanged or went through
exactly one graduation step. -/
def ProgressSpec (row : List (String × ℚ)) (seed : ℕ) (c c' : PortfolioCompany) : Prop :=
  (c.status ≠ CompanyStatus.active → c' = c) ∧
  (c' = c ∨ GraduationStep row seed c c')

theorem randAt_shift (s : ℕ) (j : ℕ) : randAt (lcgNextSeed s) j = randAt s (j + 1) := by
  unfold randAt
  rw [← Function.iterate_succ_apply]

theorem progressLoop_spec (c : PortfolioCompany) :
    ∀ (row : List (String × ℚ)) (seed : ℕ),
      ProgressSpec row seed c (progressLoop c row seed).1 := by
  intro row
  induction row with
  | nil =>
    intro seed
    exact ⟨fun _ => rfl, Or.inl rfl⟩
  | cons entry rest ih =>
    intro seed
    by_cases hcond :
        ((lcgNextSeed seed : ℕ) : ℚ) / 2147483647 < entry.2 ∧
          c.status = CompanyStatus.active
    · constructor
      · intro hna
        exact absurd hcond.2 hna
      · right
        have hres : (progressLoop c (entry :: rest) seed).1 =
            (let s1 := lcgNextSeed seed
             let s2 := lcgNextSeed s1
             let followOnAmount :=
               (c.investments.headD defaultInvestment).amount *
                 (1 / 2 + ((s2 : ℚ) / 2147483647) * 1)
             let s3 := lcgNextSeed s2
             let followOnInvestment : Investment :=
               { stage := entry.1
                 amount := followOnAmount
                 quarter := (c.investments.headD defaultInvestment).quarter + 4 +
                   (((s3 : ℚ) / 2147483647) * 8).floor
                 ownership := 3 / 100
                 isFollowOn := true }
             let graduated :=
               { c with
                 investments := c.investments ++ [followOnInvestment]
                 totalInvested := c.totalInvested + followOnAmount
                 currentStage := entry.1 }
             if graduated.exitValue ≠ 0 then
               { graduated with exitValue := graduated.exitValue * stageMultiplier entry.1 }
             else graduated) := by
          simp only [progressLoop]
          rw [if_pos hcond]
        refine ⟨0, by simp, hcond.2,
          (by intro j hj; exact absurd hj (Nat.not_lt_zero j)), ?_, ?_⟩
        · exact hcond.1
        · rw [hres]
          dsimp only
          split
          · exact ⟨rfl, rfl, rfl, rfl, rfl, rfl, rfl, rfl⟩
          · exact ⟨rfl, rfl, rfl, rfl, rfl, rfl, rfl, rfl⟩
    · have hres : (progressLoop c (entry :: rest) seed).1 =
          (progressLoop c rest (lcgNextSeed seed)).1 := by
        simp only [progressLoop]
        rw [if_neg hcond]
      obtain ⟨ihna, ihcase⟩ := ih (lcgNextSeed seed)
      constructor
      · intro hna
        rw [hres]
        exact ihna hna
      · rcases ihcase with heq | hstep
        · left
          rw [hres, heq]
        · right
          obtain ⟨k, hk, hactive, hfail, hsucc, hrest⟩ := hstep
          refine ⟨k + 1, Nat.succ_lt_succ hk, hactive, ?_, ?_, ?_⟩
          · intro j hj
            rcases j with _ | j'
            · intro hlt
              apply hcond
              refine ⟨?_, hactive⟩
              have : randAt seed 0 = ((lcgNextSeed seed : ℕ) : ℚ) / 2147483647 := by
                unfold randAt
                rw [Function.iterate_one]
              rw [← this]
              simpa using hlt
            · have hj' : j' < k := Nat.lt_of_succ_lt_succ hj
              have := hfail j' hj'
              rw [randAt_shift] at this
              simpa using this
          · have := hsucc
            rw [randAt_shift] at this
            simpa using this
          · rw [hres]
            rw [randAt_shift, randAt_shift] at hrest
            simpa using hrest

theorem simGo_spec (inputs : EnhancedFundInputs) :
    ∀ (portfolio : List PortfolioCompany) (seed : ℕ),
      List.Forall₂ (fun c c' =>
        (c.status ≠ CompanyStatus.active → c' = c) ∧
        (c' = c ∨ ∃ s0, GraduationStep (gradRowFor inputs c) s0 c c'))
        portfolio (simGo inputs portfolio seed).1 := by
  intro portfolio
  induction portfolio with
  | nil => intro seed; exact List.Forall₂.nil
  | cons c rest ih =>
    intro seed
    refine List.Forall₂.cons ?_ (ih _)
    obtain ⟨h1, h2⟩ := progressLoop_spec c (gradRowFor inputs c) seed
    exact ⟨h1, h2.imp id (fun hg => ⟨seed, hg⟩)⟩

/-- C7: in the list returned by `simulatePortfolioProgression`, each
company corresponds to its input record and graduates at most once: it
is either unchanged, or (when active) gained exactly one follow-on
investment for the first destination of its graduation row whose draw
succeeded, with its stage moved once and its invested total grown by
exactly that follow-on amount; a company whose status is not active is
returned with all fields unchanged. -/
theorem c7_graduates_at_most_once (portfolio : List PortfolioCompany)
    (inputs : EnhancedFundInputs) :
    List.Forall₂ (fun c c' =>
      (c.status ≠ CompanyStatus.active → c' = c) ∧
      (c' = c ∨ ∃ s0, GraduationStep (gradRowFor inputs c) s0 c c'))
      portfolio (simulatePortfolioProgression portfolio inputs) :=
  simGo_spec inputs portfolio 67890

/-- Witness for C7: the contract instantiated at a one-company portfolio
under the default configuration. -/
theorem c7_graduates_at_most_once_witness :
    List.Forall₂ (fun c c' =>
      (c.status ≠ CompanyStatus.active → c' = c) ∧
      (c' = c ∨ ∃ s0, GraduationStep (gradRowFor cfgDefault c) s0 c c'))
      [{ id := "seed-0-1", name := "Seed Company 1", entryStage := "Seed",
         currentStage := "Seed",
         investments := [{ stage := "Seed", amount := 400000, quarter := 3,
                           ownership := 1 / 20, isFollowOn := false }],
         totalInvested := 400000, exitValue := 2000000, exitQuarter := some 20,
         status := CompanyStatus.active }]
      (simulatePortfolioProgression
        [{ id := "seed-0-1", name := "Seed Company 1", entryStage := "Seed",
           currentStage := "Seed",
           investments := [{ stage := "Seed", amount := 400000, quarter := 3,
                             ownership := 1 / 20, isFollowOn := false }],
           totalInvested := 400000, exitValue := 2000000, exitQuarter := some 20,
           status := CompanyStatus.active }] cfgDefault) :=
  c7_graduates_at_most_once _ cfgDefault

/-! ## Forecast orchestrator (`buildEnhancedFundForecast`, source lines
524-728)

The computation between the validation gate and the cache store is a
pure function of the inputs (the generator is reseeded with constants on
every call), so the model separates the pure body (`forecastBody`) from
the validation gate (`buildEnhancedFundForecast`) and from the explicit
cache state (`buildEnhancedFundForecastCached`, further below). -/

/-- Per-company results (source lines 555-571). -/
def companyResultsFor (carryPct : ℚ) (portfolio : List PortfolioCompany) :
    List CompanyResult :=
  portfolio.map fun company =>
    let invested := company.totalInvested
    let exitProceeds := company.exitValue
    let profit := exitProceeds - invested
    let carry := max 0 (profit * carryPct)
    let lpProfit := profit - carry
    { companyId := company.id
      invested := invested
      exitProceeds := exitProceeds
      profit := profit
      carry := carry
      lpProfit := lpProfit
      multiple := if 0 < invested then exitProceeds / invested else 0 }

/-- Precomputed per-run quantities of the timeline loop (source lines
586-606). -/
structure TimelineContext where
  fundSize : ℚ
  investPeriodQuarters : ℕ
  fundLifeQuarters : ℕ
  totalInvested : ℚ
  totalExitValue : ℚ
  quarterlyMgmtFee : ℚ
  totalManagementFees : ℚ
  deploymentsPerQuarter : JSRat
  distributionStartQuarter : ℕ
  distributionPeriod : ℤ
  distributionsPerQuarter : JSRat
deriving DecidableEq, Repr

/-- The management-fee block and deployment/distribution schedules
(source lines 586-606).  The invested and exit totals, the fee base and
the fees are sums, products and guarded divisions of finite values and
stay finite rationals; the two per-quarter schedules divide by the
unvalidated `investPeriodQuarters` and `fundLifeQuarters - 12` and are
JavaScript numbers: at `fundLifeQuarters = 12` the source computes
`totalExitValue / 0`, which is `Infinity` (or `NaN` for a zero exit
total). -/
def forecastContextOf (inputs : EnhancedFundInputs) (totalInvested totalExitValue : ℚ) :
    TimelineContext :=
  let gpCommitment := inputs.fundSize * (inputs.gpCommitmentPct / 100)
  let lpCommitment := inputs.fundSize - gpCommitment
  let feeBase := if inputs.includeGpInFees then inputs.fundSize else lpCommitment
  let quarterlyMgmtFee := feeBase * inputs.managementFeeRate / 4
  let totalManagementFees := quarterlyMgmtFee * (inputs.fundLifeQuarters : ℚ)
  let distributionPeriod : ℤ := (inputs.fundLifeQuarters : ℤ) - 12
  { fundSize := inputs.fundSize
    investPeriodQuarters := inputs.investPeriodQuarters
    fundLifeQuarters := inputs.fundLifeQuarters
    totalInvested := totalInvested
    totalExitValue := totalExitValue
    quarterlyMgmtFee := quarterlyMgmtFee
    totalManagementFees := totalManagementFees
    deploymentsPerQuarter :=
      JSRat.div (JSRat.fin totalInvested) (JSRat.fin (inputs.investPeriodQuarters : ℚ))
    distributionStartQuarter := 12
    distributionPeriod := distributionPeriod
    distributionsPerQuarter :=
      JSRat.div (JSRat.fin totalExitValue) (JSRat.fin (distributionPeriod : ℚ)) }

/-- The cash-flow array fed to the IRR solver at a given quarter
(source lines 642-652). -/
def cashFlowsFor (ctx : TimelineContext) (quarter : ℕ) (nav : JSRat) : List JSRat :=
  (List.range (quarter + 1)).map fun i =>
    if i = 0 then JSRat.fin (-ctx.fundSize)
    else if ctx.distributionStartQuarter ≤ i ∧
        (i : ℤ) < (ctx.distributionStartQuarter : ℤ) + ctx.distributionPeriod then
      ctx.distributionsPerQuarter
    else if i = ctx.fundLifeQuarters then nav
    else JSRat.fin 0

/-- Accumulator of the quarterly loop: the growing timeline, the four
parallel chart arrays, and the two running cumulative sums. -/
structure TimelineAcc where
  points : List CashFlowPoint
  deployments : List JSRat
  navs : List JSRat
  dists : List JSRat
  fees : List JSRat
  cumC : JSRat
  cumD : JSRat
deriving DecidableEq, Repr

/-- One iteration of the quarterly loop (source lines 609-678), over
JavaScript numbers. -/
def timelineStep (ctx : TimelineContext) (acc : TimelineAcc) (quarter : ℕ) : TimelineAcc :=
  let year : ℚ := (quarter : ℚ) / 4
  let yearQuarter := "Y" ++ toString (quarter / 4 + 1) ++ "Q" ++ toString (quarter % 4 + 1)
  let contribution := if quarter = 0 then JSRat.fin ctx.fundSize else JSRat.fin 0
  let cumC := JSRat.add acc.cumC contribution
  let deployment :=
    if quarter ≤ ctx.investPeriodQuarters then ctx.deploymentsPerQuarter else JSRat.fin 0
  let distribution :=
    if ctx.distributionStartQuarter ≤ quarter then ctx.distributionsPerQuarter else JSRat.fin 0
  let cumD := JSRat.add acc.cumD distribution
  let mgmtFee := if 0 < quarter then JSRat.fin ctx.quarterlyMgmtFee else JSRat.fin 0
  let nav := JSRat.max (JSRat.fin 0) (JSRat.sub (JSRat.fin ctx.totalExitValue) cumD)
  let dpi := if JSRat.lt (JSRat.fin 0) cumC then JSRat.div cumD cumC else JSRat.fin 0
  let rvpi := if JSRat.lt (JSRat.fin 0) cumC then JSRat.div nav cumC else JSRat.fin 0
  let tvpi := JSRat.add dpi rvpi
  let cashFlows := cashFlowsFor ctx quarter nav
  let grossIrr := calculateIRRJS cashFlows
  let netCashFlows := cashFlows.enum.map fun p =>
    if p.1 = 0 then p.2
    else JSRat.sub p.2 (if 0 < p.1 then JSRat.fin ctx.quarterlyMgmtFee else JSRat.fin 0)
  let netIrr := calculateIRRJS netCashFlows
  let point : CashFlowPoint :=
    { quarter := quarter
      year := year
      yearQuarter := yearQuarter
      contributions := contribution
      distributions := distribution
      managementFees := mgmtFee
      cumulativeContributions := cumC
      cumulativeDistributions := cumD
      nav := nav
      dpi := dpi
      rvpi := rvpi
      tvpi := tvpi
      moic := JSRat.fin
        (if 0 < ctx.totalInvested then ctx.totalExitValue / ctx.totalInvested else 0)
      netMoic := JSRat.fin (if 0 < ctx.totalInvested then
        (ctx.totalExitValue - ctx.totalManagementFees) / ctx.totalInvested else 0)
      grossIrr := grossIrr
      netIrr := netIrr }
  { points := acc.points ++ [point]
    deployments := acc.deployments ++ [deployment]
    navs := acc.navs ++ [nav]
    dists := acc.dists ++ [distribution]
    fees := acc.fees ++ [mgmtFee]
    cumC := cumC
    cumD := cumD }

/-- The full quarterly loop, quarters 0 through `fundLifeQuarters`
inclusive. -/
def buildTimelineAcc (ctx : TimelineContext) : TimelineAcc :=
  (List.range (ctx.fundLifeQuarters + 1)).foldl (timelineStep ctx)
    { points := [], deployments := [], navs := [], dists := [], fees := [],
      cumC := JSRat.fin 0, cumD := JSRat.fin 0 }

/-- The pure forecast computation after the validation gate (source
lines 550-721); `inputs.hurdleRate || 0` coincides with `hurdleRate`
over exact rationals. The portfolio is the cold-cache
(`buildPortfolioUncached`) one: the stale-hit behaviour of the
portfolio cache is modelled separately by `buildPortfolioFromStrategy`
and only affects which portfolio reaches this function. -/
def forecastBody (inputs : EnhancedFundInputs) : ForecastResult :=
  let portfolio := simulatePortfolioProgression (buildPortfolioUncached inputs) inputs
  let companyResults := companyResultsFor inputs.carryPct portfolio
  let totalInvested := (companyResults.map (·.invested)).sum
  let totalExitValue := (companyResults.map (·.exitProceeds)).sum
  let waterfallSummary :=
    calculateAmericanWaterfall totalInvested totalExitValue inputs.carryPct inputs.hurdleRate
  let ctx := forecastContextOf inputs totalInvested totalExitValue
  let acc := buildTimelineAcc ctx
  let timeline := acc.points
  { timeline := timeline
    portfolio := portfolio
    companyResults := companyResults
    waterfallSummary := waterfallSummary
    totalInvested := totalInvested
    totalExitValue := totalExitValue
    totalManagementFees := ctx.totalManagementFees
    totalGpCarry := waterfallSummary.gpCarry
    totalLpProfit := waterfallSummary.finalLpProceeds - inputs.fundSize
    grossMoic := if 0 < totalInvested then totalExitValue / totalInvested else 0
    netMoic := if 0 < totalInvested then
      (totalExitValue - ctx.totalManagementFees - waterfallSummary.gpCarry) / inputs.fundSize
      else 0
    grossIrr := JSRat.orZero (((timeline.getLast?).map (·.grossIrr)).getD (JSRat.fin 0))
    netIrr := JSRat.orZero (((timeline.getLast?).map (·.netIrr)).getD (JSRat.fin 0))
    tvpi := JSRat.orZero (((timeline.getLast?).map (·.tvpi)).getD (JSRat.fin 0))
    dpi := JSRat.orZero (((timeline.getLast?).map (·.dpi)).getD (JSRat.fin 0))
    rvpi := JSRat.orZero (((timeline.getLast?).map (·.rvpi)).getD (JSRat.fin 0))
    fundLifeQuarters := inputs.fundLifeQuarters
    intermediates :=
      { quarterlyDeployments := acc.deployments
        quarterlyNAVs := acc.navs
        quarterlyDistributions := acc.dists
        quarterlyManagementFees := acc.fees
        companiesCreated := portfolio.length
        companiesExited := (portfolio.filter fun c => 0 < c.exitValue).length
        companiesWrittenOff :=
          (portfolio.filter fun c => c.status == CompanyStatus.writtenOff).length } }

/-- The forecast with its fail-fast validation gate (source lines
538-548): a structured `FundModelError` carrying the error-severity
issues when any is present, the computed result otherwise. -/
def buildEnhancedFundForecast (inputs : EnhancedFundInputs) :
    Except FundModelError ForecastResult :=
  let errors := validateEnhancedInputs inputs
  let criticalErrors := errors.filter fun e => e.severity == Severity.error
  if criticalErrors.isEmpty then Except.ok (forecastBody inputs)
  else Except.error
    { code := "VALIDATION_ERROR"
      message := "Validation failed: " ++ String.intercalate "; " (criticalErrors.map (·.message))
      details := criticalErrors }

/-! ## Claim C3: the validation gate -/

/-- C3: the forecast refuses to run (returns the structured error) if and
only if validation contains an error-severity issue, and runs to a
result when only warnings are present; in particular `fundSize = 0`
yields an error-severity `INVALID_FUND_SIZE` issue and a refusal. -/
theorem c3_validation_gate (inputs : EnhancedFundInputs) :
    ((buildEnhancedFundForecast inputs).isOk = false ↔
      ∃ e ∈ validateEnhancedInputs inputs, e.severity = Severity.error) ∧
    (∀ err, buildEnhancedFundForecast inputs = Except.error err →
      err.details = (validateEnhancedInputs inputs).filter
        (fun e => e.severity == Severity.error)) ∧
    (inputs.fundSize = 0 →
      (∃ e ∈ validateEnhancedInputs inputs,
        e.code = "INVALID_FUND_SIZE" ∧ e.severity = Severity.error) ∧
      (buildEnhancedFundForecast inputs).isOk = false) := by
  have hmain : (buildEnhancedFundForecast inputs).isOk = false ↔
      ∃ e ∈ validateEnhancedInputs inputs, e.severity = Severity.error := by
    unfold buildEnhancedFundForecast
    dsimp only
    by_cases hemp :
        (validateEnhancedInputs inputs).filter (fun e => e.severity == Severity.error) = []
    · rw [hemp]
      constructor
      · intro habs
        exact Bool.noConfusion habs
      · rintro ⟨e, he, hsev⟩
        have hin : e ∈ (validateEnhancedInputs inputs).filter
            (fun e => e.severity == Severity.error) :=
          List.mem_filter.mpr ⟨he, by simp [hsev]⟩
        rw [hemp] at hin
        exact absurd hin (List.not_mem_nil e)
    · rw [if_neg (by
        intro hE
        exact hemp (List.isEmpty_iff.mp hE))]
      refine ⟨fun _ => ?_, fun _ => rfl⟩
      obtain ⟨e, he⟩ := List.exists_mem_of_ne_nil _ hemp
      obtain ⟨hmem, hsev⟩ := List.mem_filter.mp he
      exact ⟨e, hmem, by simpa using hsev⟩
  have hdetails : ∀ err, buildEnhancedFundForecast inputs = Except.error err →
      err.details = (validateEnhancedInputs inputs).filter
        (fun e => e.severity == Severity.error) := by
    intro err herr
    unfold buildEnhancedFundForecast at herr
    dsimp only at herr
    split at herr
    · cases herr
    · injection herr with hX
      rw [← hX]
  refine ⟨hmain, hdetails, ?_⟩
  intro h0
  have hissue : ValidationError.mk "fundSize" "Fund size must be a positive number"
      "INVALID_FUND_SIZE" Severity.error ∈ validateEnhancedInputs inputs := by
    unfold validateEnhancedInputs
    refine List.mem_append_left _ (List.mem_append_left _ (List.mem_append_left _
      (List.mem_append_left _ ?_)))
    unfold fundSizeIssues
    rw [if_pos (by rw [h0])]
    exact List.mem_singleton_self _
  refine ⟨⟨_, hissue, rfl, rfl⟩, hmain.mpr ⟨_, hissue, rfl⟩⟩

unseal Rat.add Rat.mul Rat.inv Rat.sub in
/-- Witness for C3 at `cfgZeroFund` (`fundSize = 0`): the forecast is
refused and the `INVALID_FUND_SIZE` error-severity issue is present. -/
theorem c3_validation_gate_witness :
    (buildEnhancedFundForecast cfgZeroFund).isOk = false ∧
    (validateEnhancedInputs cfgZeroFund).any
      (fun e => e.code == "INVALID_FUND_SIZE" && e.severity == Severity.error) = true :=
  ⟨((c3_validation_gate cfgZeroFund).2.2 rfl).2, by decide⟩

/-! ## Claim C5: TVPI decomposition -/

theorem timelineStep_cumC (ctx : TimelineContext) (acc : TimelineAcc) (q : ℕ) :
    (timelineStep ctx acc q).cumC =
      JSRat.add acc.cumC (if q = 0 then JSRat.fin ctx.fundSize else JSRat.fin 0) := rfl

theorem timelineStep_cumD (ctx : TimelineContext) (acc : TimelineAcc) (q : ℕ) :
    (timelineStep ctx acc q).cumD =
      JSRat.add acc.cumD
        (if ctx.distributionStartQuarter ≤ q then ctx.distributionsPerQuarter
         else JSRat.fin 0) := rfl

theorem timelineStep_point_fields (ctx : TimelineContext) (acc : TimelineAcc) (q : ℕ) :
    ∃ pt, (timelineStep ctx acc q).points = acc.points ++ [pt] ∧
      pt.dpi = (if JSRat.lt (JSRat.fin 0) ((timelineStep ctx acc q).cumC) then
          JSRat.div ((timelineStep ctx acc q).cumD) ((timelineStep ctx acc q).cumC)
        else JSRat.fin 0) ∧
      pt.rvpi = (if JSRat.lt (JSRat.fin 0) ((timelineStep ctx acc q).cumC) then
          JSRat.div
            (JSRat.max (JSRat.fin 0)
              (JSRat.sub (JSRat.fin ctx.totalExitValue) ((timelineStep ctx acc q).cumD)))
            ((timelineStep ctx acc q).cumC)
        else JSRat.fin 0) ∧
      pt.tvpi = JSRat.add pt.dpi pt.rvpi :=
  ⟨_, rfl, rfl, rfl, rfl⟩

/-- A guarded ratio of finite JavaScript numbers is finite: the division
only runs when the denominator is strictly positive. -/
theorem jsrat_ratio_fin (u : JSRat) (a b : ℚ) (hu : u = JSRat.fin a) :
    ∃ w, (if JSRat.lt (JSRat.fin 0) (JSRat.fin b) then JSRat.div u (JSRat.fin b)
          else JSRat.fin 0) = JSRat.fin w := by
  subst hu
  by_cases hb : (0 : ℚ) < b
  · refine ⟨a / b, ?_⟩
    rw [if_pos (by simpa [JSRat.lt] using hb)]
    simp only [JSRat.div]
    rw [if_neg (ne_of_gt hb)]
  · exact ⟨0, if_neg (by simpa [JSRat.lt] using hb)⟩

/-- For a finite JavaScript number `x`, `|x - x| < 1e-9` holds; for
`NaN` or an infinity it would be false. -/
theorem jsrat_self_sub_check (x : JSRat) (q : ℚ) (hx : x = JSRat.fin q) :
    JSRat.lt (JSRat.abs (JSRat.sub x x)) (JSRat.fin (1 / 1000000000)) = true := by
  subst hx
  show JSRat.lt (JSRat.abs (JSRat.fin (q - q))) (JSRat.fin (1 / 1000000000)) = true
  rw [sub_self]
  show decide ((|(0 : ℚ)|) < 1 / 1000000000) = true
  rw [abs_zero]
  exact decide_eq_true (by norm_num)

/-- One timeline step preserves finiteness of the cumulative sums (when
the distribution schedule is finite) and appends a point whose `tvpi`
satisfies the decomposition bound. -/
theorem timelineStep_inv (ctx : TimelineContext)
    (hdpq : ∃ d, ctx.distributionsPerQuarter = JSRat.fin d)
    (acc : TimelineAcc) (q : ℕ)
    (hC : ∃ a, acc.cumC = JSRat.fin a) (hD : ∃ b, acc.cumD = JSRat.fin b) :
    (∃ a, (timelineStep ctx acc q).cumC = JSRat.fin a) ∧
    (∃ b, (timelineStep ctx acc q).cumD = JSRat.fin b) ∧
    ∃ pt, (timelineStep ctx acc q).points = acc.points ++ [pt] ∧
      JSRat.lt (JSRat.abs (JSRat.sub pt.tvpi (JSRat.add pt.dpi pt.rvpi)))
        (JSRat.fin (1 / 1000000000)) = true := by
  obtain ⟨a, ha⟩ := hC
  obtain ⟨b, hb⟩ := hD
  obtain ⟨d, hd⟩ := hdpq
  have hC2 : ∃ a2, (timelineStep ctx acc q).cumC = JSRat.fin a2 := by
    rw [timelineStep_cumC, ha]
    by_cases h0 : q = 0
    · rw [if_pos h0]; exact ⟨_, rfl⟩
    · rw [if_neg h0]; exact ⟨_, rfl⟩
  have hD2 : ∃ b2, (timelineStep ctx acc q).cumD = JSRat.fin b2 := by
    rw [timelineStep_cumD, hb]
    by_cases h12 : ctx.distributionStartQuarter ≤ q
    · rw [if_pos h12, hd]; exact ⟨_, rfl⟩
    · rw [if_neg h12]; exact ⟨_, rfl⟩
  obtain ⟨A, hA⟩ := hC2
  obtain ⟨B, hB⟩ := hD2
  refine ⟨⟨A, hA⟩, ⟨B, hB⟩, ?_⟩
  obtain ⟨pt, hpts, hdpi, hrvpi, htvpi⟩ := timelineStep_point_fields ctx acc q
  rw [hA, hB] at hdpi
  rw [hA, hB] at hrvpi
  obtain ⟨w1, hw1⟩ := jsrat_ratio_fin (JSRat.fin B) B A rfl
  rw [hw1] at hdpi
  have hnav : JSRat.max (JSRat.fin 0) (JSRat.sub (JSRat.fin ctx.totalExitValue) (JSRat.fin B))
      = JSRat.fin (if 0 ≤ ctx.totalExitValue - B then ctx.totalExitValue - B else 0) := rfl
  rw [hnav] at hrvpi
  obtain ⟨w2, hw2⟩ := jsrat_ratio_fin
    (JSRat.fin (if 0 ≤ ctx.totalExitValue - B then ctx.totalExitValue - B else 0))
    (if 0 ≤ ctx.totalExitValue - B then ctx.totalExitValue - B else 0) A rfl
  rw [hw2] at hrvpi
  refine ⟨pt, hpts, ?_⟩
  rw [htvpi, hdpi, hrvpi]
  exact jsrat_self_sub_check _ (w1 + w2) rfl

theorem buildTimeline_check (ctx : TimelineContext)
    (hdpq : ∃ d, ctx.distributionsPerQuarter = JSRat.fin d) :
    ∀ (l : List ℕ) (acc : TimelineAcc),
      (∃ a, acc.cumC = JSRat.fin a) → (∃ b, acc.cumD = JSRat.fin b) →
      (∀ pt ∈ acc.points,
        JSRat.lt (JSRat.abs (JSRat.sub pt.tvpi (JSRat.add pt.dpi pt.rvpi)))
          (JSRat.fin (1 / 1000000000)) = true) →
      ∀ pt ∈ (l.foldl (timelineStep ctx) acc).points,
        JSRat.lt (JSRat.abs (JSRat.sub pt.tvpi (JSRat.add pt.dpi pt.rvpi)))
          (JSRat.fin (1 / 1000000000)) = true := by
  intro l
  induction l with
  | nil => intro acc _ _ hpts; exact hpts
  | cons q rest ih =>
    intro acc hC hD hpts
    rw [List.foldl_cons]
    obtain ⟨hC2, hD2, pt0, hpts0, hchk⟩ := timelineStep_inv ctx hdpq acc q hC hD
    refine ih (timelineStep ctx acc q) hC2 hD2 ?_
    intro pt hpt
    rw [hpts0] at hpt
    rcases List.mem_append.mp hpt with hmem | hmem
    · exact hpts pt hmem
    · rw [List.mem_singleton.mp hmem]
      exact hchk

theorem forecastContextOf_dpq (inputs : EnhancedFundInputs) (ti te : ℚ) :
    (forecastContextOf inputs ti te).distributionsPerQuarter =
      JSRat.div (JSRat.fin te)
        (JSRat.fin (((inputs.fundLifeQuarters : ℤ) - 12 : ℤ) : ℚ)) := rfl

/-- Away from `fundLifeQuarters = 12` the distribution schedule is a
finite number: the divisor `fundLifeQuarters - 12` is nonzero. -/
theorem dpq_fin_of_ne (inputs : EnhancedFundInputs) (ti te : ℚ)
    (hlife : inputs.fundLifeQuarters ≠ 12) :
    ∃ d, (forecastContextOf inputs ti te).distributionsPerQuarter = JSRat.fin d := by
  have hz : ((((inputs.fundLifeQuarters : ℤ) - 12 : ℤ) : ℚ)) ≠ 0 := by
    intro h
    have h1 : ((inputs.fundLifeQuarters : ℤ) - 12 : ℤ) = 0 := by exact_mod_cast h
    have h2 : inputs.fundLifeQuarters = 12 := by omega
    exact hlife h2
  refine ⟨te / (((inputs.fundLifeQuarters : ℤ) - 12 : ℤ) : ℚ), ?_⟩
  rw [forecastContextOf_dpq]
  simp only [JSRat.div]
  rw [if_neg hz]

theorem forecastBody_timeline (inputs : EnhancedFundInputs) :
    ∃ ti te, (forecastBody inputs).timeline =
      (buildTimelineAcc (forecastContextOf inputs ti te)).points :=
  ⟨_, _, rfl⟩

/-- C5 (amended): for every successful forecast of a configuration
whose `fundLifeQuarters` is not exactly 12, every timeline point
satisfies `|tvpi - (dpi + rvpi)| < 1e-9` in JavaScript arithmetic:
`tvpi` is computed as `dpi + rvpi`, never independently, and away from
`fundLifeQuarters = 12` every quantity entering it stays finite, so the
difference is exactly zero.  At exactly 12 the source divides
`totalExitValue` by `fundLifeQuarters - 12 = 0` and the resulting
`Infinity`/`NaN` propagates into the comparison, which is then false. -/
theorem c5_tvpi_decomposition (inputs : EnhancedFundInputs) (r : ForecastResult)
    (h : buildEnhancedFundForecast inputs = Except.ok r)
    (hlife : inputs.fundLifeQuarters ≠ 12) :
    ∀ pt ∈ r.timeline,
      JSRat.lt (JSRat.abs (JSRat.sub pt.tvpi (JSRat.add pt.dpi pt.rvpi)))
        (JSRat.fin (1 / 1000000000)) = true := by
  have hr : r = forecastBody inputs := by
    unfold buildEnhancedFundForecast at h
    dsimp only at h
    split at h
    · exact (Except.ok.injEq _ _ ▸ h).symm
    · cases h
  subst hr
  obtain ⟨ti, te, htl⟩ := forecastBody_timeline inputs
  rw [htl]
  intro pt hpt
  unfold buildTimelineAcc at hpt
  exact buildTimeline_check (forecastContextOf inputs ti te)
    (dpq_fin_of_ne inputs ti te hlife) _ _
    ⟨0, rfl⟩ ⟨0, rfl⟩ (fun p hp => absurd hp (List.not_mem_nil p)) pt hpt

/-- The all-failure scenario configuration: a 20M fund with one full
Seed allocation whose exit-probability row is all failure, so every
generated company samples a zero exit multiple. -/
def cfgAllFail : EnhancedFundInputs := { cfgZeroFund with fundSize := 20000000 }

/-- `cfgAllFail` with a 12-quarter fund life — the value at which the
source computes `distributionsPerQuarter = totalExitValue / 0`. -/
def cfgLife12 : EnhancedFundInputs := { cfgAllFail with fundLifeQuarters := 12 }

deriving instance DecidableEq for Except

/-- The forecast result at `cfgAllFail` (the configuration passes
validation, so the forecast returns a result). -/
def resAllFail : ForecastResult :=
  match buildEnhancedFundForecast cfgAllFail with
  | Except.ok r => r
  | Except.error _ => default

unseal Rat.add Rat.mul Rat.inv Rat.sub in
/-- Counterexample to C5 as stated: `cfgLife12` passes validation and
its forecast succeeds, but at quarter 12 the distribution schedule is
`0 / 0 = NaN`, the `NaN` propagates into `dpi`, `rvpi` and `tvpi` of
that quarter's point, and `|tvpi - (dpi + rvpi)| < 1e-9` — a comparison
against `NaN` — is false, so not every timeline point satisfies the
bound. -/
theorem c5_tvpi_nan_counterexample :
    (buildEnhancedFundForecast cfgLife12).toOption.map
      (fun r => r.timeline.all fun pt =>
        JSRat.lt (JSRat.abs (JSRat.sub pt.tvpi (JSRat.add pt.dpi pt.rvpi)))
          (JSRat.fin (1 / 1000000000))) = some false := by
  decide

unseal Rat.add Rat.mul Rat.inv Rat.sub in
/-- Witness for C5 (amended) at `cfgAllFail` (`fundLifeQuarters = 40`):
the first timeline point satisfies the decomposition bound. -/
theorem c5_tvpi_decomposition_witness :
    (buildEnhancedFundForecast cfgAllFail = Except.ok resAllFail) ∧
    cfgAllFail.fundLifeQuarters ≠ 12 ∧
    ((resAllFail.timeline.headD default) ∈ resAllFail.timeline) ∧
    JSRat.lt (JSRat.abs (JSRat.sub (resAllFail.timeline.headD default).tvpi
        (JSRat.add (resAllFail.timeline.headD default).dpi
          (resAllFail.timeline.headD default).rvpi)))
      (JSRat.fin (1 / 1000000000)) = true :=
  ⟨by decide, by decide, by decide,
    c5_tvpi_decomposition cfgAllFail resAllFail (by decide) (by decide) _ (by decide)⟩

/-! ## Claim C2: the zero-profit scenario -/

theorem randAt_nonneg (s j : ℕ) : 0 ≤ randAt s j := by
  unfold randAt
  positivity

theorem mem_enum_of_mem {α : Type} {l : List α} {a : α} (ha : a ∈ l) :
    ∃ i, (i, a) ∈ l.enum := by
  obtain ⟨i, hi, hEq⟩ := List.mem_iff_getElem.mp ha
  refine ⟨i, List.mem_enum_iff_getElem?.mpr ?_⟩
  simp [List.getElem?_eq_getElem hi, hEq]

theorem snd_mem_of_mem_enum {α : Type} {l : List α} {p : ℕ × α} (hp : p ∈ l.enum) :
    p.2 ∈ l := by
  have h := List.mem_enum_iff_getElem?.mp hp
  exact List.getElem?_mem h

/-- A configuration that passes the validation gate has no
error-severity issue at all. -/
theorem no_error_of_ok (inputs : EnhancedFundInputs)
    (hok : (validateEnhancedInputs inputs).filter (fun e => e.severity == Severity.error) = []) :
    ∀ e ∈ validateEnhancedInputs inputs, e.severity ≠ Severity.error := by
  intro e he hsev
  have hin : e ∈ (validateEnhancedInputs inputs).filter
      (fun e => e.severity == Severity.error) :=
    List.mem_filter.mpr ⟨he, by simp [hsev]⟩
  rw [hok] at hin
  exact absurd hin (List.not_mem_nil e)

/-- A configuration that passes the validation gate has a positive
average check size in every stage strategy (otherwise the
`INVALID_INVESTMENT_SIZE` error would be present). -/
theorem sizes_pos_of_ok (inputs : EnhancedFundInputs)
    (hok : (validateEnhancedInputs inputs).filter (fun e => e.severity == Severity.error) = []) :
    ∀ s ∈ inputs.stageStrategies, 0 < s.avgInvestmentSize := by
  intro s hs
  by_contra hle
  have hle' : s.avgInvestmentSize ≤ 0 := le_of_not_lt hle
  obtain ⟨i, hi⟩ := mem_enum_of_mem hs
  have h1 : ValidationError.mk ("stageStrategies[" ++ toString i ++ "].avgInvestmentSize")
      ("Average investment size must be positive for " ++ s.stage)
      "INVALID_INVESTMENT_SIZE" Severity.error ∈ strategyIssues (i, s) := by
    unfold strategyIssues
    dsimp only
    rw [if_pos hle']
    exact List.mem_append_left _ (List.mem_singleton_self _)
  have hmem : ∀ x : ValidationError, x ∈ strategyIssues (i, s) →
      x ∈ validateEnhancedInputs inputs := by
    intro x hx
    unfold validateEnhancedInputs
    refine List.mem_append_left _ (List.mem_append_left _ (List.mem_append_left _
      (List.mem_append_right _ ?_)))
    unfold strategyListIssues
    rw [if_neg (by
      intro hE
      rw [List.isEmpty_iff] at hE
      rw [hE] at hs
      exact absurd hs (List.not_mem_nil s))]
    exact List.mem_append_left _
      (List.mem_flatten.mpr ⟨strategyIssues (i, s), List.mem_map_of_mem _ hi, hx⟩)
  exact no_error_of_ok inputs hok _ (hmem _ h1) rfl

/-- Every company the builder creates carries its strategy's check size
as its invested total and as the amount of its single investment. -/
theorem buildCompanies_shape (inputs : EnhancedFundInputs) (idx : ℕ) (s : StageStrategy) :
    ∀ (n i seed : ℕ), ∀ c ∈ (buildCompanies inputs idx s n i seed).1,
      c.totalInvested = s.avgInvestmentSize ∧
      (c.investments.headD defaultInvestment).amount = s.avgInvestmentSize := by
  intro n
  induction n with
  | zero => intro i seed c hc; simp [buildCompanies] at hc
  | succ m ih =>
    intro i seed c hc
    simp only [buildCompanies, List.mem_cons] at hc
    rcases hc with hc | hc
    · subst hc
      exact ⟨rfl, rfl⟩
    · exact ih (i + 1) _ c hc

theorem built_company_shape (inputs : EnhancedFundInputs) :
    ∀ c ∈ buildPortfolioUncached inputs,
      ∃ s ∈ inputs.stageStrategies, c.totalInvested = s.avgInvestmentSize ∧
        (c.investments.headD defaultInvestment).amount = s.avgInvestmentSize := by
  unfold buildPortfolioUncached
  suffices h : ∀ (l : List (ℕ × StageStrategy)) (seed : ℕ),
      (∀ p ∈ l, p.2 ∈ inputs.stageStrategies) →
      ∀ c ∈ (buildGo inputs l seed).1,
        ∃ s ∈ inputs.stageStrategies, c.totalInvested = s.avgInvestmentSize ∧
          (c.investments.headD defaultInvestment).amount = s.avgInvestmentSize by
    exact h inputs.stageStrategies.enum 12345
      (fun p hp => snd_mem_of_mem_enum hp)
  intro l
  induction l with
  | nil => intro seed hmem c hc; simp [buildGo] at hc
  | cons p rest ih =>
    intro seed hmem c hc
    simp only [buildGo, List.mem_append] at hc
    rcases hc with hc | hc
    · obtain ⟨h1, h2⟩ := buildCompanies_shape inputs p.1 p.2 _ 0 seed c hc
      exact ⟨p.2, hmem p (List.mem_cons_self _ _), h1, h2⟩
    · exact ih _ (fun q hq => hmem q (List.mem_cons_of_mem _ hq)) c hc

theorem forall₂_mem_right {α β : Type} {R : α → β → Prop} :
    ∀ {l₁ : List α} {l₂ : List β}, List.Forall₂ R l₁ l₂ →
      ∀ b ∈ l₂, ∃ a ∈ l₁, R a b := by
  intro l₁ l₂ h
  induction h with
  | nil => intro b hb; exact absurd hb (List.not_mem_nil b)
  | @cons a b as bs hR _ ih =>
    intro x hx
    rcases List.mem_cons.mp hx with rfl | hx
    · exact ⟨a, List.mem_cons_self _ _, hR⟩
    · obtain ⟨y, hy, hr⟩ := ih x hx
      exact ⟨y, List.mem_cons_of_mem _ hy, hr⟩

/-- Every company in the progressed portfolio of a validated
configuration has a nonnegative invested total. -/
theorem progressed_nonneg (inputs : EnhancedFundInputs)
    (hsz : ∀ s ∈ inputs.stageStrategies, 0 < s.avgInvestmentSize) :
    ∀ c ∈ simulatePortfolioProgression (buildPortfolioUncached inputs) inputs,
      0 ≤ c.totalInvested := by
  intro c' hc'
  obtain ⟨c, hc, hspec⟩ :=
    forall₂_mem_right (c7_graduates_at_most_once (buildPortfolioUncached inputs) inputs)
      c' hc'
  obtain ⟨s, hs, hti, hhead⟩ := built_company_shape inputs c hc
  have hspos := hsz s hs
  rcases hspec.2 with rfl | ⟨s0, hstep⟩
  · rw [hti]
    exact le_of_lt hspos
  · obtain ⟨k, hk, _, _, _, _, _, htot, _⟩ := hstep
    rw [htot, hti, hhead]
    have hr := randAt_nonneg s0 (k + 1)
    nlinarith

/-- C2 (amended): for any validated configuration whose progressed
portfolio carries only zero exit values (every sampled exit multiple is
0), the forecast has `grossMoic = 0` and `waterfallSummary.gpCarry = 0`,
but `netMoic` equals `-(totalManagementFees / fundSize)` whenever any
capital was invested (and 0 only when no capital was invested), since
the source computes it as
`(totalExitValue - totalManagementFees - gpCarry) / fundSize`. -/
theorem c2_zero_exit_scenario (inputs : EnhancedFundInputs) (r : ForecastResult)
    (h : buildEnhancedFundForecast inputs = Except.ok r)
    (hz : ∀ c ∈ r.portfolio, c.exitValue = 0) :
    r.grossMoic = 0 ∧ r.waterfallSummary.gpCarry = 0 ∧
    (0 < r.totalInvested → r.netMoic = -(r.totalManagementFees / inputs.fundSize)) ∧
    (r.totalInvested = 0 → r.netMoic = 0) := by
  have hok : (validateEnhancedInputs inputs).filter
      (fun e => e.severity == Severity.error) = [] := by
    unfold buildEnhancedFundForecast at h
    dsimp only at h
    split at h
    · next hemp => exact List.isEmpty_iff.mp hemp
    · cases h
  have hr : r = forecastBody inputs := by
    unfold buildEnhancedFundForecast at h
    dsimp only at h
    split at h
    · exact (Except.ok.injEq _ _ ▸ h).symm
    · cases h
  subst hr
  set P := simulatePortfolioProgression (buildPortfolioUncached inputs) inputs with hPdef
  set CRS := companyResultsFor inputs.carryPct P with hCRS
  set TI := (CRS.map (·.invested)).sum with hTI
  set TE := (CRS.map (·.exitProceeds)).sum with hTE
  have hport : (forecastBody inputs).portfolio = P := rfl
  have hgross : (forecastBody inputs).grossMoic = (if 0 < TI then TE / TI else 0) := rfl
  have hwf : (forecastBody inputs).waterfallSummary =
      calculateAmericanWaterfall TI TE inputs.carryPct inputs.hurdleRate := rfl
  have hti' : (forecastBody inputs).totalInvested = TI := rfl
  have hfees : (forecastBody inputs).totalManagementFees =
      (forecastContextOf inputs TI TE).totalManagementFees := rfl
  have hnet : (forecastBody inputs).netMoic =
      (if 0 < TI then
        (TE - (forecastContextOf inputs TI TE).totalManagementFees -
          (calculateAmericanWaterfall TI TE inputs.carryPct inputs.hurdleRate).gpCarry) /
          inputs.fundSize
      else 0) := rfl
  have hzP : ∀ c ∈ P, c.exitValue = 0 := by
    intro c hc
    exact hz c (by rw [hport]; exact hc)
  have hTE0 : TE = 0 := by
    rw [hTE]
    apply List.sum_eq_zero
    intro x hx
    obtain ⟨cr, hcr, rfl⟩ := List.mem_map.mp hx
    rw [hCRS] at hcr
    unfold companyResultsFor at hcr
    obtain ⟨c, hc, rfl⟩ := List.mem_map.mp hcr
    exact hzP c hc
  have hTI0 : 0 ≤ TI := by
    rw [hTI]
    apply List.sum_nonneg
    intro x hx
    obtain ⟨cr, hcr, rfl⟩ := List.mem_map.mp hx
    rw [hCRS] at hcr
    unfold companyResultsFor at hcr
    obtain ⟨c, hc, rfl⟩ := List.mem_map.mp hcr
    exact progressed_nonneg inputs (sizes_pos_of_ok inputs hok) c hc
  have hgp0 : (calculateAmericanWaterfall TI TE inputs.carryPct inputs.hurdleRate).gpCarry
      = 0 := by
    unfold calculateAmericanWaterfall
    dsimp only
    rw [if_pos (by rw [hTE0]; linarith)]
  refine ⟨?_, ?_, ?_, ?_⟩
  · rw [hgross, hTE0]
    split_ifs with hcase
    · exact zero_div _
    · rfl
  · rw [hwf]
    exact hgp0
  · intro hpos
    rw [hti'] at hpos
    rw [hnet, hfees, if_pos hpos, hgp0, hTE0]
    ring
  · intro hzero
    rw [hti'] at hzero
    rw [hnet, if_neg (by rw [hzero]; exact lt_irrefl 0)]

unseal Rat.add Rat.mul Rat.inv Rat.sub in
/-- Counterexample to C2 as stated: at `cfgAllFail` every generated
company samples a zero exit multiple and `grossMoic` and `gpCarry` are
0, but `netMoic` is `-0.196`, not 0 (the management fees are charged
against a fund with no proceeds). -/
theorem c2_zero_exit_counterexample :
    (buildEnhancedFundForecast cfgAllFail).toOption.map
      (fun r => (r.portfolio.all (fun c => c.exitValue == 0),
        r.grossMoic == 0, r.waterfallSummary.gpCarry == 0, r.netMoic == 0))
      = some (true, true, true, false) ∧
    resAllFail.netMoic = -(49 / 250) := by
  constructor
  · decide
  · decide

unseal Rat.add Rat.mul Rat.inv Rat.sub in
/-- Witness for C2 (amended) at `cfgAllFail`. -/
theorem c2_zero_exit_scenario_witness :
    (buildEnhancedFundForecast cfgAllFail = Except.ok resAllFail) ∧
    (∀ c ∈ resAllFail.portfolio, c.exitValue = 0) ∧
    0 < resAllFail.totalInvested ∧
    (resAllFail.grossMoic = 0 ∧ resAllFail.waterfallSummary.gpCarry = 0 ∧
      (0 < resAllFail.totalInvested →
        resAllFail.netMoic = -(resAllFail.totalManagementFees / cfgAllFail.fundSize)) ∧
      (resAllFail.totalInvested = 0 → resAllFail.netMoic = 0)) :=
  ⟨by decide, by decide, by decide,
    c2_zero_exit_scenario cfgAllFail resAllFail (by decide) (by decide)⟩

/-! ## Claim C9: cache idempotence (the memoization layer)

The source keys `calculationCache` by `JSON.stringify(inputs)`; the
program always serializes a configuration the same way, so two
byte-identical keys correspond to equal configuration values and the
model keys the cache by the configuration itself.  The wall-clock
`calculationTimes` array feeds only `averageCalculationTime`, which no
claim mentions, so the modelled state carries the cache and the two
hit/miss counters. -/

/-- The observable counters of `getPerformanceMetrics` (without the
wall-clock average calculation time). -/
structure PerformanceMetrics where
  cacheHitRate : ℚ
  totalCalculations : ℕ
  cacheSize : ℕ
deriving DecidableEq, Repr

/-- The mutable module state: the FIFO memoization cache (insertion
order, oldest first) and the hit/miss counters. -/
structure EngineState where
  cache : List (EnhancedFundInputs × ForecastResult)
  cacheHits : ℕ
  cacheMisses : ℕ
deriving DecidableEq, Repr

/-- Lookup modelling `calculationCache.has/get` on the association
list. -/
def cacheLookup (cache : List (EnhancedFundInputs × ForecastResult))
    (inputs : EnhancedFundInputs) : Option ForecastResult :=
  (cache.find? fun p => p.1 == inputs).map (·.2)

/-- The forecast with its memoization layer (source lines 527-536 and
710-719): a hit increments `cacheHits` and returns the stored result; a
miss increments `cacheMisses`, computes, evicts the oldest entry when
the cache is full, and stores the fresh result.  A failed computation is
never stored. -/
def buildEnhancedFundForecastCached (s : EngineState) (inputs : EnhancedFundInputs) :
    Except FundModelError ForecastResult × EngineState :=
  match cacheLookup s.cache inputs with
  | some r => (Except.ok r, { s with cacheHits := s.cacheHits + 1 })
  | none =>
    let s1 : EngineState := { s with cacheMisses := s.cacheMisses + 1 }
    match buildEnhancedFundForecast inputs with
    | Except.error e => (Except.error e, s1)
    | Except.ok r =>
      let trimmed := if CACHE_SIZE_LIMIT ≤ s1.cache.length then s1.cache.drop 1 else s1.cache
      (Except.ok r, { s1 with cache := trimmed ++ [(inputs, r)] })

/-- The performance counters (source lines 731-738). -/
def getPerformanceMetrics (s : EngineState) : PerformanceMetrics :=
  { cacheHitRate := if 0 < s.cacheHits + s.cacheMisses then
      (s.cacheHits : ℚ) / ((s.cacheHits : ℚ) + (s.cacheMisses : ℚ)) else 0
    totalCalculations := s.cacheHits + s.cacheMisses
    cacheSize := s.cache.length }

theorem find?_append_of_none {α : Type} (p : α → Bool) :
    ∀ (l₁ l₂ : List α), l₁.find? p = none → (l₁ ++ l₂).find? p = l₂.find? p := by
  intro l₁
  induction l₁ with
  | nil => intro l₂ _; rfl
  | cons a l ih =>
    intro l₂ hnone
    by_cases hp : p a = true
    · rw [List.find?_cons_of_pos _ hp] at hnone
      cases hnone
    · have hp' : p a = false := by
        cases hcase : p a
        · rfl
        · exact absurd hcase hp
      rw [List.find?_cons_of_neg _ (by simp [hp'])] at hnone
      rw [List.cons_append, List.find?_cons_of_neg _ (by simp [hp'])]
      exact ih l₂ hnone

theorem hit_rate_strict_mono (h m : ℕ) :
    ((h : ℚ)) / ((h : ℚ) + ((m : ℚ) + 1)) <
      ((h : ℚ) + 1) / (((h : ℚ) + 1) + ((m : ℚ) + 1)) := by
  rw [div_lt_div_iff₀ (by positivity) (by positivity)]
  nlinarith [Nat.cast_nonneg (α := ℚ) h, Nat.cast_nonneg (α := ℚ) m]

/-- C9: from any state in which the configuration is not cached and its
first forecast call succeeds (so the first call computes and stores the
result), the second call with the identical configuration returns the
identical result and the cache hit rate strictly increases between the
two calls. -/
theorem c9_cache_idempotence (s : EngineState) (inputs : EnhancedFundInputs)
    (r1 : ForecastResult) (s1 : EngineState)
    (hmiss : cacheLookup s.cache inputs = none)
    (hfirst : buildEnhancedFundForecastCached s inputs = (Except.ok r1, s1)) :
    (buildEnhancedFundForecastCached s1 inputs).1 = Except.ok r1 ∧
    (getPerformanceMetrics (buildEnhancedFundForecastCached s1 inputs).2).cacheHitRate >
      (getPerformanceMetrics s1).cacheHitRate := by
  unfold buildEnhancedFundForecastCached at hfirst
  rw [hmiss] at hfirst
  cases hbody : buildEnhancedFundForecast inputs with
  | error e =>
    rw [hbody] at hfirst
    have := congrArg Prod.fst hfirst
    simp at this
  | ok r =>
    rw [hbody] at hfirst
    dsimp only at hfirst
    have hfst := congrArg Prod.fst hfirst
    have hsnd := congrArg Prod.snd hfirst
    simp only [Prod.fst, Prod.snd] at hfst hsnd
    have hr : r = r1 := by
      cases hfst
      rfl
    subst hr
    have hnotin : ∀ p ∈ s.cache, ¬ ((p.1 == inputs) = true) := by
      apply List.find?_eq_none.mp
      unfold cacheLookup at hmiss
      exact Option.map_eq_none'.mp hmiss
    have htrim : ((if CACHE_SIZE_LIMIT ≤ s.cache.length then s.cache.drop 1 else
        s.cache).find? fun p => p.1 == inputs) = none := by
      apply List.find?_eq_none.mpr
      intro p hp
      apply hnotin
      split at hp
      · exact List.mem_of_mem_drop hp
      · exact hp
    have hlook : cacheLookup s1.cache inputs = some r := by
      rw [← hsnd]
      unfold cacheLookup
      rw [find?_append_of_none _ _ _ htrim]
      rw [List.find?_cons_of_pos _ (by simp)]
      rfl
    constructor
    · unfold buildEnhancedFundForecastCached
      rw [hlook]
    · unfold buildEnhancedFundForecastCached
      rw [hlook]
      unfold getPerformanceMetrics
      have hhits : s1.cacheHits = s.cacheHits := by rw [← hsnd]
      have hmisses : s1.cacheMisses = s.cacheMisses + 1 := by rw [← hsnd]
      dsimp only
      rw [hhits, hmisses]
      rw [if_pos (by omega), if_pos (by omega)]
      push_cast
      exact hit_rate_strict_mono s.cacheHits s.cacheMisses

/-- The state after a first (miss) forecast call on the empty state. -/
def stateAfterFirst : EngineState :=
  (buildEnhancedFundForecastCached { cache := [], cacheHits := 0, cacheMisses := 0 }
    cfgAllFail).2

unseal Rat.add Rat.mul Rat.inv Rat.sub in
/-- Witness for C9: first call on the empty state at `cfgAllFail`
computes and stores `resAllFail`; the second call returns the identical
result and the hit rate strictly increases. -/
theorem c9_cache_idempotence_witness :
    cacheLookup ([] : List (EnhancedFundInputs × ForecastResult)) cfgAllFail = none ∧
    ((buildEnhancedFundForecastCached { cache := [], cacheHits := 0, cacheMisses := 0 }
        cfgAllFail) = (Except.ok resAllFail, stateAfterFirst)) ∧
    ((buildEnhancedFundForecastCached stateAfterFirst cfgAllFail).1 = Except.ok resAllFail ∧
    (getPerformanceMetrics
        (buildEnhancedFundForecastCached stateAfterFirst cfgAllFail).2).cacheHitRate >
      (getPerformanceMetrics stateAfterFirst).cacheHitRate) :=
  ⟨rfl, by decide,
    c9_cache_idempotence { cache := [], cacheHits := 0, cacheMisses := 0 } cfgAllFail
      resAllFail stateAfterFirst rfl (by decide)⟩
